import Mathlib

/-!
Shallow embedding of the release-publishing pipeline of
RageAgainstThePixel/upload-google-play-console (src/index.ts, src/metadata.ts,
src/package-info.ts).  Effectful collaborators (the Android Publisher client,
the file system, the badging tools, the tool cache, the GitHub release API)
are modelled as explicit oracle parameters; every remote-service request the
orchestrator issues is recorded in a trace of `RemoteCall` values.
-/

namespace GPlay

/-- PackageInfo from src/package-info.ts: immutable record of a package's
identity and version, plus the artifact's file path. -/
structure PackageInfo where
  packageName : String
  versionName : String
  versionCode : String
  filePath : String
deriving DecidableEq, Repr

/-- PackageInfo.getReleaseName from src/package-info.ts:
returns the string versionCode followed by versionName in parentheses. -/
def PackageInfo.getReleaseName (p : PackageInfo) : String :=
  p.versionCode ++ " (" ++ p.versionName ++ ")"

/-- Image type enumeration declared in src/metadata.ts (interface Image, field
type). -/
inductive ImageType where
  | phoneScreenshots
  | sevenInchScreenshots
  | tenInchScreenshots
  | tvScreenshots
  | wearScreenshots
  | icon
  | featureGraphic
  | tvBanner
deriving DecidableEq, Repr

/-- Image as DECLARED in src/metadata.ts: only a type and a local path.
Note: no language field is declared here. -/
structure Image where
  type : ImageType
  path : String
deriving DecidableEq, Repr

/-- LocalizedText from src/metadata.ts. -/
structure LocalizedText where
  language : String
  text : String
deriving DecidableEq, Repr

/-- CountryTargeting from src/metadata.ts. -/
structure CountryTargeting where
  countries : Option (List String)
  includeRestOfWorld : Option Bool
deriving DecidableEq, Repr

/-- Listing as declared in src/metadata.ts. -/
structure Listing where
  language : String
  title : String
  fullDescription : String
  shortDescription : String
  video : Option String
  images : List Image
deriving DecidableEq, Repr

/-- A JSON value that may be a single object or an array of objects
(the singular-vs-array normalization done for listing and releaseNotes in
src/index.ts lines 278-282 and 309-311). -/
inductive OneOrMany (α : Type) where
  | one : α → OneOrMany α
  | many : List α → OneOrMany α
deriving DecidableEq, Repr

/-- Metadata as DECLARED in src/metadata.ts: listing, releaseNotes and
countryTargeting only.  Note: no top-level images field is declared here. -/
structure Metadata where
  listing : Option (OneOrMany Listing)
  releaseNotes : Option (OneOrMany LocalizedText)
  countryTargeting : Option CountryTargeting
deriving DecidableEq, Repr

/-- Shape of the entries of the runtime value metadata.images exactly as the
orchestrator reads them in src/index.ts lines 332-347: image.language,
image.type and image.path (the type reaches the client as a plain string).
The declared Image interface of src/metadata.ts carries no language field and
the declared Metadata interface carries no images field; JSON.parse in
src/index.ts line 95 performs no validation, so the parsed object can carry
this shape at runtime, and the README and tests/metadata.test.ts document and
check exactly this three-field shape. -/
structure ImageInput where
  language : String
  type : String
  path : String
deriving DecidableEq, Repr

/-- The parsed metadata value as the orchestrator consumes it in src/index.ts
(fields listing, releaseNotes, countryTargeting, images). -/
structure MetadataValue where
  listing : Option (OneOrMany Listing)
  releaseNotes : Option (OneOrMany LocalizedText)
  countryTargeting : Option CountryTargeting
  images : Option (List ImageInput)
deriving DecidableEq, Repr

/-- Error classes of the pipeline; each constructor corresponds to one thrown
Error in src/index.ts. -/
inductive PErr where
  | missingGithubToken
  | missingCredentials
  | invalidReleaseStatus (status : String)
  | invalidUserFraction
  | invalidInAppUpdatePriority
  | emptyReleaseDirectory
  | noReleaseAssets
  | multipleApk (first second : String)
  | multipleAab (first second : String)
  | apkAndAabConflict
  | badFilePath (path : String)
  | wrongSuffix (path : String)
  | fileNotFound (path : String)
  | toolNotFound (tool : String)
  | toolExecFailed (code : Int)
  | manifestFieldMissing (path : String)
  | missingJava
  | latestReleaseFailed
  | noJarAsset
  | downloadFailed
  | downloadUnreadable
  | emptyDownload
  | noPackageName
  | editInsertFailed
  | apkUploadFailed (path : String)
  | apkVersionCodeMissing (path : String)
  | bundleUploadFailed (path : String)
  | bundleVersionCodeMissing (path : String)
  | noVersionCode
  | tracksListFailed
  | unknownTrack (track : String)
  | getTrackFailed (track : String)
  | trackUpdateFailed (track : String)
  | validateFailed
  | commitFailed
deriving DecidableEq, Repr

/-- The three classification failures of src/index.ts lines 132, 135 and 144:
more than one APK, more than one AAB, or both formats at once. -/
def PErr.isConflict : PErr → Bool
  | .multipleApk _ _ => true
  | .multipleAab _ _ => true
  | .apkAndAabConflict => true
  | _ => false

/-- Result of the classification loop of src/index.ts lines 124-142:
at most one APK info, at most one AAB info, expansion files and
symbol/deobfuscation files in encounter order. -/
structure AssetSet where
  apkInfo : Option PackageInfo
  aabInfo : Option PackageInfo
  expansionFiles : List String
  symbolFiles : List String
deriving DecidableEq, Repr

/-- JS String.prototype.endsWith, phrased as a character-list suffix test
(equivalent to String.endsWith). -/
def endsWithStr (s suffix : String) : Bool := suffix.data.isSuffixOf s.data

/-- JS String.prototype.toLowerCase, phrased on the character list
(equivalent to String.toLower). -/
def toLowerStr (s : String) : String := String.mk (s.data.map Char.toLower)

/-- JS String.prototype.trim, phrased on the character list (equivalent to
String.trim). -/
def trimStr (s : String) : String :=
  String.mk (((s.data.dropWhile Char.isWhitespace).reverse.dropWhile
    Char.isWhitespace).reverse)

/-- The classification loop of src/index.ts lines 130-142, with the two
metadata extractors passed as oracles (they perform tool execution).  Walks
the asset list grouping by lowercase suffix; a second APK or a second AAB
aborts immediately with the corresponding error. -/
def classifyLoop (getApk getAab : String → Except PErr PackageInfo) :
    List String → Option PackageInfo → Option PackageInfo →
    List String → List String → Except PErr AssetSet
  | [], apkInfo, aabInfo, obbs, zips => .ok ⟨apkInfo, aabInfo, obbs, zips⟩
  | assetPath :: rest, apkInfo, aabInfo, obbs, zips =>
    if endsWithStr (toLowerStr assetPath) ".apk" then
      match apkInfo with
      | some prev => .error (.multipleApk prev.filePath assetPath)
      | none =>
        match getApk assetPath with
        | .error e => .error e
        | .ok info => classifyLoop getApk getAab rest (some info) aabInfo obbs zips
    else if endsWithStr (toLowerStr assetPath) ".aab" then
      match aabInfo with
      | some prev => .error (.multipleAab prev.filePath assetPath)
      | none =>
        match getAab assetPath with
        | .error e => .error e
        | .ok info => classifyLoop getApk getAab rest apkInfo (some info) obbs zips
    else if endsWithStr (toLowerStr assetPath) ".obb" then
      classifyLoop getApk getAab rest apkInfo aabInfo (obbs ++ [assetPath]) zips
    else if endsWithStr (toLowerStr assetPath) ".zip" then
      classifyLoop getApk getAab rest apkInfo aabInfo obbs (zips ++ [assetPath])
    else
      classifyLoop getApk getAab rest apkInfo aabInfo obbs zips

/-- Classification of the release assets: the loop of src/index.ts lines
130-142 followed by the mutual-exclusion check of line 144. -/
def classifyAssets (getApk getAab : String → Except PErr PackageInfo)
    (releaseAssets : List String) : Except PErr AssetSet :=
  match classifyLoop getApk getAab releaseAssets none none [] [] with
  | .error e => .error e
  | .ok s =>
    match s.apkInfo, s.aabInfo with
    | some _, some _ => .error .apkAndAabConflict
    | _, _ => .ok s

/-- Number of entries of the listing whose lowercase form ends in the given
suffix. -/
def countSuffix (suffix : String) : List String → Nat
  | [] => 0
  | p :: rest => (if endsWithStr (toLowerStr p) suffix then 1 else 0) + countSuffix suffix rest

/-- The primary artifact chosen by src/index.ts line 148 and line 285:
the APK when present, otherwise the AAB. -/
def primaryInfo (s : AssetSet) : Option PackageInfo :=
  match s.apkInfo with
  | some info => some info
  | none => s.aabInfo

/-- A double or single quote, the character class of the manifest field
patterns of src/index.ts lines 439-441 and 549-551. -/
def isQuote (c : Char) : Bool := c = '"' || c = Char.ofNat 39

/-- One attempt of the pattern key followed by a quote, one or more non-quote
characters and a quote, anchored at the start of s.  Mirrors what the regex
engine tries at a single position for the patterns of src/index.ts lines
439-441: because the captured class is the maximal run of non-quote
characters, greedy matching with backtracking succeeds at a position exactly
when this check does. -/
def matchAt (key : List Char) (s : List Char) : Option String :=
  if key.isPrefixOf s then
    match s.drop key.length with
    | [] => none
    | q :: rest =>
      if isQuote q then
        let run := rest.takeWhile (fun c => !(isQuote c))
        match rest.drop run.length with
        | [] => none
        | q2 :: _ => if isQuote q2 && !run.isEmpty then some (String.mk run) else none
      else none
  else none

/-- Leftmost match: try matchAt at every position of the output, left to
right, as String.prototype.match does for an unanchored pattern. -/
def scanFor (key : List Char) : List Char → Option String
  | [] => none
  | c :: rest =>
    match matchAt key (c :: rest) with
    | some v => some v
    | none => scanFor key rest

/-- Extraction of one named manifest field from the captured tool output.
The three patterns of src/index.ts lines 439-441 (identical at lines 549-551)
all have the shape key optionally preceded by the android: prefix, then a
quote, a nonempty capture of non-quote characters, and a quote; the optional
android: prefix neither enables nor disables a match nor changes the capture,
since every occurrence of the prefixed key contains the bare key at an offset
with the identical capture, so it is dropped here. -/
def extractField (key output : String) : Option String :=
  scanFor key.data output.data

/-- Captured result of running a badging tool: exit code and accumulated
standard output (src/index.ts lines 426-437). -/
structure ToolRun where
  exitCode : Int
  output : String
deriving DecidableEq, Repr

/-- Manifest parsing shared by getPackageInfoApk and getPackageInfoAab
(src/index.ts lines 439-450 and 549-560): a fully populated PackageInfo when
all three patterns match, none otherwise. -/
def parsePackageInfo (output filePath : String) : Option PackageInfo :=
  match extractField "package=" output, extractField "versionCode=" output,
        extractField "versionName=" output with
  | some pkg, some versionCode, some versionName =>
    some ⟨pkg, versionName, versionCode, filePath⟩
  | _, _, _ => none

/-- getPackageInfoApk from src/index.ts lines 398-456.  The file system, the
tool lookup and the tool execution are oracles: fileExists is the existsSync
check, toolFound covers the io.which / getAaptPath resolution, and run is the
captured execution of aapt2 dump badging. -/
def getPackageInfoApk (filePath : String) (fileExists toolFound : Bool)
    (run : ToolRun) : Except PErr PackageInfo :=
  if trimStr filePath = "" then .error (.badFilePath filePath)
  else if !(endsWithStr (toLowerStr filePath) ".apk") then .error (.wrongSuffix filePath)
  else if !fileExists then .error (.fileNotFound filePath)
  else if !toolFound then .error (.toolNotFound "aapt2")
  else if run.exitCode ≠ 0 then .error (.toolExecFailed run.exitCode)
  else
    match parsePackageInfo run.output filePath with
    | some info => .ok info
    | none => .error (.manifestFieldMissing filePath)

/-- getPackageInfoAab from src/index.ts lines 505-566, identical to the APK
variant except for the suffix check and the tool (bundletool, provisioned on
demand by setupBundleTool when absent; toolFound covers that resolution). -/
def getPackageInfoAab (filePath : String) (fileExists toolFound : Bool)
    (run : ToolRun) : Except PErr PackageInfo :=
  if trimStr filePath = "" then .error (.badFilePath filePath)
  else if !(endsWithStr (toLowerStr filePath) ".aab") then .error (.wrongSuffix filePath)
  else if !fileExists then .error (.fileNotFound filePath)
  else if !toolFound then .error (.toolNotFound "bundletool")
  else if run.exitCode ≠ 0 then .error (.toolExecFailed run.exitCode)
  else
    match parsePackageInfo run.output filePath with
    | some info => .ok info
    | none => .error (.manifestFieldMissing filePath)

/-- A release asset of the upstream bundletool repository (name and download
URL), as consumed by setupBundleTool in src/index.ts lines 600-617. -/
structure ReleaseAsset where
  name : String
  browserDownloadUrl : String
deriving DecidableEq, Repr

/-- setupBundleTool from src/index.ts lines 568-644, with its effectful
collaborators as oracles: javaFound is the io.which java lookup,
cachedVersions the tc.findAllVersions result, cacheFindPath the tc.find
lookup for a cached version, releaseStatus and assets and tagName the GitHub
latest-release response, downloadOk whether tc.downloadTool succeeded,
downloadReadable the accessSync check, downloadSize the statSync size of the
downloaded jar, and cacheDirPath the tc.cacheDir result keyed by the release
tag.  Returns the tool path added to the execution PATH. -/
def setupBundleTool (javaFound : Bool) (cachedVersions : List String)
    (cacheFindPath : String → String) (releaseStatus : Nat)
    (assets : List ReleaseAsset) (tagName : String) (downloadOk : Bool)
    (downloadReadable : Bool) (downloadSize : Nat) (cacheDirPath : String → String) :
    Except PErr String :=
  if !javaFound then .error .missingJava
  else if !cachedVersions.isEmpty then
    .ok (cacheFindPath ((cachedVersions.mergeSort (fun a b => a ≤ b)).reverse.headD ""))
  else if releaseStatus ≠ 200 then .error .latestReleaseFailed
  else
    match assets.find? (fun asset => endsWithStr asset.name ".jar") with
    | none => .error .noJarAsset
    | some _ =>
      if !downloadOk then .error .downloadFailed
      else if !downloadReadable then .error .downloadUnreadable
      else if downloadSize = 0 then .error .emptyDownload
      else .ok (cacheDirPath tagName)

/-- Track release record as built by src/index.ts lines 284-292
(google Schema TrackRelease restricted to the fields the orchestrator
sets). -/
structure TrackRelease where
  name : String
  status : String
  versionCodes : List String
  userFraction : Option ℚ
  releaseNotes : Option (List LocalizedText)
  countryTargeting : Option CountryTargeting
  inAppUpdatePriority : Option ℤ
deriving DecidableEq, Repr

/-- One request issued to the remote publishing service, with the arguments
the orchestrator computes for it.  The pipeline records these in issue
order. -/
inductive RemoteCall where
  | insertEdit (packageName : String)
  | uploadApk (packageName path : String)
  | uploadExpansion (apkVersionCode : Nat) (expansionFileType path : String)
  | uploadBundle (packageName path : String)
  | uploadDeobfuscation (apkVersionCode : Nat) (deobfuscationFileType path : String)
  | listTracks (packageName : String)
  | getTrack (track : String)
  | updateTrack (track : String) (releases : List TrackRelease)
  | updateListing (language : String)
  | uploadImage (language imageType path : String)
  | validateEdit
  | commitEdit (changesNotSentForReview : Bool)
deriving DecidableEq, Repr

/-- Responses of the remote publishing service, one field per call site of
src/index.ts; the per-path Bool functions model per-item outcomes of the
auxiliary uploads.  existingReleases is the releases field of the tracks.get
response (src/index.ts line 269-276), which the current code never reads
beyond the ok check. -/
structure Remote where
  insertOk : Bool
  editId : String
  apkUploadOk : Bool
  apkVersionCode : Option Nat
  bundleUploadOk : Bool
  bundleVersionCode : Option Nat
  deobUploadOk : String → Bool
  expansionUploadOk : String → Bool
  tracksListOk : Bool
  trackNames : List String
  getTrackOk : Bool
  existingReleases : List TrackRelease
  updateTrackOk : Bool
  listingUpdateOk : String → Bool
  imageUploadOk : String → Bool
  validateOk : Bool
  commitOk : Bool

/-- Local file system oracle, used by resolvePath (src/index.ts lines
383-391). -/
structure FS where
  fileExists : String → Bool

/-- Raw configuration surface of the action (src/index.ts lines 21-50).
getInput yields the empty string for an unset input; the float and int
parses of lines 61 and 77 are represented by their results, with none inside
the option standing for NaN. -/
structure Config where
  githubToken : String
  credentialsPath : String
  envCredentials : Option String
  releaseName : String
  track : String
  status : String
  userFractionInput : Option (Option ℚ)
  inAppUpdatePriorityInput : Option (Option ℤ)
  metadata : Option MetadataValue
  changesNotSentForReview : Bool

/-- Validated configuration reaching the remote phase. -/
structure ConfigOk where
  track : String
  releaseStatus : String
  userFraction : Option ℚ
  userFractionWarned : Bool
  inAppUpdatePriority : Option ℤ
  releaseName : String
  metadata : Option MetadataValue
  changesNotSentForReview : Bool
deriving DecidableEq

/-- The user-fraction block of src/index.ts lines 58-72: absent input leaves
the fraction undefined; NaN or a value outside the closed interval from 0 to
1 is a configuration error; a valid value is dropped to undefined with a
warning unless the release status is inProgress or halted.  Returns the
fraction together with whether the warning was recorded. -/
def computeUserFraction (input : Option (Option ℚ)) (releaseStatus : String) :
    Except PErr (Option ℚ × Bool) :=
  match input with
  | none => .ok (none, false)
  | some none => .error .invalidUserFraction
  | some (some v) =>
    if v < 0 || 1 < v then .error .invalidUserFraction
    else if releaseStatus ≠ "inProgress" && releaseStatus ≠ "halted" then
      .ok (none, true)
    else .ok (some v, false)

/-- The in-app-update-priority block of src/index.ts lines 74-83. -/
def computePriority (input : Option (Option ℤ)) : Except PErr (Option ℤ) :=
  match input with
  | none => .ok none
  | some none => .error .invalidInAppUpdatePriority
  | some (some n) =>
    if n < 0 || 5 < n then .error .invalidInAppUpdatePriority
    else .ok (some n)

/-- Track defaulting of src/index.ts line 45: an unset input defaults to
internal. -/
def effTrack (cfg : Config) : String :=
  if cfg.track = "" then "internal" else cfg.track

/-- Status defaulting of src/index.ts line 46: an unset input defaults to
completed. -/
def effStatus (cfg : Config) : String :=
  if cfg.status = "" then "completed" else cfg.status

/-- Configuration validation of src/index.ts lines 21-97, in source order:
github token, credentials, defaults for track and status, status enum check,
user fraction, update priority.  Metadata parsing is represented by the
already-parsed value in the configuration. -/
def configPhase (cfg : Config) : Except PErr ConfigOk :=
  if trimStr cfg.githubToken = "" then .error .missingGithubToken
  else if cfg.credentialsPath = "" && cfg.envCredentials = none then
    .error .missingCredentials
  else if !(["completed", "draft", "inProgress", "halted"].contains (effStatus cfg)) then
    .error (.invalidReleaseStatus (effStatus cfg))
  else
    match computeUserFraction cfg.userFractionInput (effStatus cfg) with
    | .error e => .error e
    | .ok (userFraction, warned) =>
      match computePriority cfg.inAppUpdatePriorityInput with
      | .error e => .error e
      | .ok priority =>
        .ok ⟨effTrack cfg, effStatus cfg, userFraction, warned, priority,
             cfg.releaseName, cfg.metadata, cfg.changesNotSentForReview⟩

/-- Substring containment, String.prototype.includes of src/index.ts lines
183-185, phrased on character lists. -/
def containsSub (pattern : List Char) : List Char → Bool
  | [] => pattern.isEmpty
  | c :: rest => pattern.isPrefixOf (c :: rest) || containsSub pattern rest

/-- Expansion file tagging of src/index.ts lines 183-187: main if the
lowercase path contains main, else patch if it contains patch, else
skipped. -/
def expansionFileType (obbPath : String) : Option String :=
  if containsSub "main".data (toLowerStr obbPath).data then some "main"
  else if containsSub "patch".data (toLowerStr obbPath).data then some "patch"
  else none

/-- Deobfuscation type selection of src/index.ts line 243: nativeCode for a
lowercase .zip suffix, proguard otherwise. -/
def deobfuscationFileType (symbolPath : String) : String :=
  if endsWithStr (toLowerStr symbolPath) ".zip" then "nativeCode" else "proguard"

/-- Requests issued by the expansion-file loop of src/index.ts lines 181-212:
one upload per main- or patch-tagged obb (failures are caught and logged, so
the calls attempted do not depend on their outcomes); untagged files are
skipped without a request. -/
def expansionCalls (apkVersionCode : Nat) (expansionFiles : List String) :
    List RemoteCall :=
  expansionFiles.filterMap (fun obbPath =>
    match expansionFileType obbPath with
    | none => none
    | some ft => some (RemoteCall.uploadExpansion apkVersionCode ft obbPath))

/-- Requests issued by the deobfuscation-file loop of src/index.ts lines
235-255: one upload per symbol file; failures are caught and logged, so
every file is attempted. -/
def symbolCalls (versionCode : Nat) (symbolFiles : List String) :
    List RemoteCall :=
  symbolFiles.map (fun symbolPath =>
    RemoteCall.uploadDeobfuscation versionCode (deobfuscationFileType symbolPath) symbolPath)

/-- Normalization of metadata.listing (src/index.ts lines 309-311). -/
def listingsOf (metadata : Option MetadataValue) : List Listing :=
  match metadata with
  | none => []
  | some md =>
    match md.listing with
    | none => []
    | some (.one l) => [l]
    | some (.many ls) => ls

/-- The images array of the metadata (src/index.ts line 332). -/
def imagesOf (metadata : Option MetadataValue) : List ImageInput :=
  match metadata with
  | none => []
  | some md => md.images.getD []

/-- Normalization of metadata.releaseNotes (src/index.ts lines 278-282). -/
def releaseNotesOf (metadata : Option MetadataValue) : Option (List LocalizedText) :=
  match metadata with
  | none => none
  | some md =>
    match md.releaseNotes with
    | none => none
    | some (.one rn) => some [rn]
    | some (.many rns) => some rns

/-- Requests issued by the listing loop of src/index.ts lines 308-330: one
update per normalized listing; failures are caught and logged, so every
locale is attempted. -/
def listingCalls (metadata : Option MetadataValue) : List RemoteCall :=
  (listingsOf metadata).map (fun l => RemoteCall.updateListing l.language)

/-- Requests issued by the image loop of src/index.ts lines 332-355: one
upload per image whose local file resolves; a resolvePath failure is thrown
inside the per-image try and is caught and logged, so it suppresses only
that image's request; an upload failure is likewise caught, so every image
is attempted. -/
def imageCalls (metadata : Option MetadataValue) (fsys : FS) : List RemoteCall :=
  (imagesOf metadata).filterMap (fun image =>
    if fsys.fileExists image.path then
      some (RemoteCall.uploadImage image.language image.type image.path)
    else none)

/-- The new track release constructed in src/index.ts lines 284-292. -/
def mkNewRelease (c : ConfigOk) (info : PackageInfo) (versionCode : Nat) :
    TrackRelease :=
  { name := if c.releaseName = "" then info.getReleaseName else c.releaseName
  , status := c.releaseStatus
  , versionCodes := [Nat.repr versionCode]
  , userFraction := c.userFraction
  , releaseNotes := releaseNotesOf c.metadata
  , countryTargeting := c.metadata.bind (fun md => md.countryTargeting)
  , inAppUpdatePriority := c.inAppUpdatePriority }

/-- The APK branch of src/index.ts lines 163-213: resolve the APK path
(fatal if the file is gone), upload it, require a nonzero version code in
the response (a falsy versionCode throws at line 177), then attempt the
expansion uploads.  Returns the version code when an APK was present. -/
def apkPhase (s : AssetSet) (fsys : FS) (r : Remote) :
    List RemoteCall × Except PErr (Option Nat) :=
  match s.apkInfo with
  | none => ([], .ok none)
  | some info =>
    if !(fsys.fileExists info.filePath) then ([], .error (.fileNotFound info.filePath))
    else if !r.apkUploadOk then
      ([RemoteCall.uploadApk info.packageName info.filePath],
       .error (.apkUploadFailed info.filePath))
    else
      match r.apkVersionCode with
      | none => ([RemoteCall.uploadApk info.packageName info.filePath],
                 .error (.apkVersionCodeMissing info.filePath))
      | some 0 => ([RemoteCall.uploadApk info.packageName info.filePath],
                   .error (.apkVersionCodeMissing info.filePath))
      | some vc => ([RemoteCall.uploadApk info.packageName info.filePath] ++
                      expansionCalls vc s.expansionFiles, .ok (some vc))

/-- The AAB branch of src/index.ts lines 215-231: upload the bundle and
require a nonzero version code in the response. -/
def aabPhase (s : AssetSet) (r : Remote) (prior : Option Nat) :
    List RemoteCall × Except PErr (Option Nat) :=
  match s.aabInfo with
  | none => ([], .ok prior)
  | some info =>
    if !r.bundleUploadOk then
      ([RemoteCall.uploadBundle info.packageName info.filePath],
       .error (.bundleUploadFailed info.filePath))
    else
      match r.bundleVersionCode with
      | none => ([RemoteCall.uploadBundle info.packageName info.filePath],
                 .error (.bundleVersionCodeMissing info.filePath))
      | some 0 => ([RemoteCall.uploadBundle info.packageName info.filePath],
                   .error (.bundleVersionCodeMissing info.filePath))
      | some vc => ([RemoteCall.uploadBundle info.packageName info.filePath],
                    .ok (some vc))

/-- Primary artifact upload, src/index.ts lines 163-233: the APK branch,
the AAB branch, then the version-code presence check of line 233. -/
def primaryPhase (s : AssetSet) (fsys : FS) (r : Remote) :
    List RemoteCall × Except PErr Nat :=
  match apkPhase s fsys r with
  | (t1, .error e) => (t1, .error e)
  | (t1, .ok v1) =>
    match aabPhase s r v1 with
    | (t2, .error e) => (t1 ++ t2, .error e)
    | (t2, .ok v2) =>
      match v2 with
      | none => (t1 ++ t2, .error .noVersionCode)
      | some 0 => (t1 ++ t2, .error .noVersionCode)
      | some vc => (t1 ++ t2, .ok vc)

/-- The track phase of src/index.ts lines 257-306: list the tracks, fail if
the requested track is absent, get the track (the response is only checked
for ok), then update the track submitting the singleton release list built
from the new release. -/
def trackPhase (c : ConfigOk) (info : PackageInfo) (versionCode : Nat)
    (r : Remote) : List RemoteCall × Except PErr Unit :=
  if !r.tracksListOk then
    ([RemoteCall.listTracks info.packageName], .error .tracksListFailed)
  else if !(r.trackNames.contains c.track) then
    ([RemoteCall.listTracks info.packageName], .error (.unknownTrack c.track))
  else if !r.getTrackOk then
    ([RemoteCall.listTracks info.packageName] ++ [RemoteCall.getTrack c.track],
     .error (.getTrackFailed c.track))
  else if !r.updateTrackOk then
    ([RemoteCall.listTracks info.packageName] ++ [RemoteCall.getTrack c.track] ++
       [RemoteCall.updateTrack c.track [mkNewRelease c info versionCode]],
     .error (.trackUpdateFailed c.track))
  else
    ([RemoteCall.listTracks info.packageName] ++ [RemoteCall.getTrack c.track] ++
       [RemoteCall.updateTrack c.track [mkNewRelease c info versionCode]],
     .ok ())

/-- Validation and commit, src/index.ts lines 357-375. -/
def finalPhase (changesNotSentForReview : Bool) (r : Remote) :
    List RemoteCall × Except PErr Unit :=
  if !r.validateOk then ([RemoteCall.validateEdit], .error .validateFailed)
  else if !r.commitOk then
    ([RemoteCall.validateEdit] ++ [RemoteCall.commitEdit changesNotSentForReview],
     .error .commitFailed)
  else
    ([RemoteCall.validateEdit] ++ [RemoteCall.commitEdit changesNotSentForReview],
     .ok ())

/-- The edit-session transaction of src/index.ts lines 146-375: package name
(falsy check of line 150), edit insert, primary artifact upload with
expansion files, deobfuscation uploads, track read and update, listing and
image uploads, validate, commit. -/
def remotePhase (c : ConfigOk) (s : AssetSet) (fsys : FS) (r : Remote) :
    List RemoteCall × Except PErr Unit :=
  match primaryInfo s with
  | none => ([], .error .noPackageName)
  | some info =>
    if info.packageName = "" then ([], .error .noPackageName)
    else if !r.insertOk then
      ([RemoteCall.insertEdit info.packageName], .error .editInsertFailed)
    else
      match primaryPhase s fsys r with
      | (t1, .error e) =>
        ([RemoteCall.insertEdit info.packageName] ++ t1, .error e)
      | (t1, .ok versionCode) =>
        match trackPhase c info versionCode r with
        | (t3, .error e) =>
          ([RemoteCall.insertEdit info.packageName] ++ t1 ++
             symbolCalls versionCode s.symbolFiles ++ t3, .error e)
        | (t3, .ok _) =>
          match finalPhase c.changesNotSentForReview r with
          | (t5, res) =>
            ([RemoteCall.insertEdit info.packageName] ++ t1 ++
               symbolCalls versionCode s.symbolFiles ++ t3 ++
               (listingCalls c.metadata ++ imageCalls c.metadata fsys) ++ t5, res)

/-- Release-directory handling of src/index.ts lines 99-150: the emptiness
check on the raw directory listing, the emptiness check on the glob result,
and classification.  items is the readdirSync listing, releaseAssets the
glob matches for the four suffix patterns. -/
def assetPhase (getApk getAab : String → Except PErr PackageInfo)
    (items releaseAssets : List String) : Except PErr AssetSet :=
  if items.isEmpty then .error .emptyReleaseDirectory
  else if releaseAssets.isEmpty then .error .noReleaseAssets
  else classifyAssets getApk getAab releaseAssets

/-- The whole pipeline of src/index.ts main (lines 19-379): configuration
validation, then directory classification, then the remote transaction.
Returns the trace of remote-service requests issued, in order, together
with the outcome. -/
def main (cfg : Config) (items releaseAssets : List String)
    (getApk getAab : String → Except PErr PackageInfo) (fsys : FS)
    (r : Remote) : List RemoteCall × Except PErr Unit :=
  match configPhase cfg with
  | .error e => ([], .error e)
  | .ok c =>
    match assetPhase getApk getAab items releaseAssets with
    | .error e => ([], .error e)
    | .ok s => remotePhase c s fsys r

/-! ## Classification lemmas -/

/-- Contribution of an already-collected primary candidate to an artifact
count. -/
def optCount (o : Option PackageInfo) : Nat := if o.isSome then 1 else 0

@[simp] theorem optCount_none : optCount none = 0 := rfl

@[simp] theorem optCount_some (i : PackageInfo) : optCount (some i) = 1 := rfl

theorem endsWithStr_iff {s suffix : String} :
    endsWithStr s suffix = true ↔ suffix.data <:+ s.data := by
  simp [endsWithStr]

theorem not_apk_and_aab (s : String) :
    endsWithStr s ".apk" = true → endsWithStr s ".aab" = true → False := by
  intro h1 h2
  rw [endsWithStr_iff] at h1 h2
  rcases List.suffix_or_suffix_of_suffix h1 h2 with h | h
  · exact absurd (h.eq_of_length (by decide)) (by decide)
  · exact absurd (h.eq_of_length (by decide)) (by decide)

theorem countSuffix_cons (suffix p : String) (rest : List String) :
    countSuffix suffix (p :: rest) =
      (if endsWithStr (toLowerStr p) suffix then 1 else 0) + countSuffix suffix rest := rfl

theorem countSuffix_pos_ne_nil {suffix : String} {assets : List String}
    (h : 1 ≤ countSuffix suffix assets) : assets ≠ [] := by
  intro hnil
  subst hnil
  simp [countSuffix] at h

/-- When the listing holds two or more APKs, two or more AABs, or at least
one of each (counting a candidate already in hand), the classification loop
either aborts with a conflict error or completes with both primary slots
filled — provided the extraction oracles succeed. -/
theorem classifyLoop_conflict (getApk getAab : String → Except PErr PackageInfo)
    (hA : ∀ p, ∃ i, getApk p = .ok i) (hB : ∀ p, ∃ i, getAab p = .ok i)
    (assets : List String) :
    ∀ (apkInfo aabInfo : Option PackageInfo) (obbs zips : List String),
    (2 ≤ countSuffix ".apk" assets + optCount apkInfo ∨
     2 ≤ countSuffix ".aab" assets + optCount aabInfo ∨
     (1 ≤ countSuffix ".apk" assets + optCount apkInfo ∧
      1 ≤ countSuffix ".aab" assets + optCount aabInfo)) →
    (∃ e, classifyLoop getApk getAab assets apkInfo aabInfo obbs zips = .error e ∧
          e.isConflict = true) ∨
    (∃ s, classifyLoop getApk getAab assets apkInfo aabInfo obbs zips = .ok s ∧
          s.apkInfo.isSome = true ∧ s.aabInfo.isSome = true) := by
  induction assets with
  | nil =>
    intro apkInfo aabInfo obbs zips h
    right
    refine ⟨⟨apkInfo, aabInfo, obbs, zips⟩, rfl, ?_⟩
    cases apkInfo <;> cases aabInfo <;> simp [countSuffix, optCount] at h ⊢
  | cons p rest ih =>
    intro apkInfo aabInfo obbs zips h
    by_cases hapk : endsWithStr (toLowerStr p) ".apk" = true
    · have haab : ¬ endsWithStr (toLowerStr p) ".aab" = true :=
        fun hc => not_apk_and_aab (toLowerStr p) hapk hc
      cases hinfo : apkInfo with
      | some prev =>
        left
        exact ⟨.multipleApk prev.filePath p, by simp [classifyLoop, hapk], rfl⟩
      | none =>
        obtain ⟨i, hi⟩ := hA p
        have hred : classifyLoop getApk getAab (p :: rest) none aabInfo obbs zips =
            classifyLoop getApk getAab rest (some i) aabInfo obbs zips := by
          simp [classifyLoop, hapk, hi]
        subst hinfo
        rw [hred]
        apply ih
        rw [countSuffix_cons, countSuffix_cons] at h
        simp [hapk, haab, optCount] at h ⊢
        omega
    · by_cases haab : endsWithStr (toLowerStr p) ".aab" = true
      · cases hinfo : aabInfo with
        | some prev =>
          left
          exact ⟨.multipleAab prev.filePath p, by simp [classifyLoop, hapk, haab], rfl⟩
        | none =>
          obtain ⟨i, hi⟩ := hB p
          have hred : classifyLoop getApk getAab (p :: rest) apkInfo none obbs zips =
              classifyLoop getApk getAab rest apkInfo (some i) obbs zips := by
            simp [classifyLoop, hapk, haab, hi]
          subst hinfo
          rw [hred]
          apply ih
          rw [countSuffix_cons, countSuffix_cons] at h
          simp [hapk, haab, optCount] at h ⊢
          omega
      · have hcount : countSuffix ".apk" (p :: rest) = countSuffix ".apk" rest ∧
            countSuffix ".aab" (p :: rest) = countSuffix ".aab" rest := by
          rw [countSuffix_cons, countSuffix_cons]
          simp [hapk, haab]
        have hred : classifyLoop getApk getAab (p :: rest) apkInfo aabInfo obbs zips =
            classifyLoop getApk getAab rest apkInfo aabInfo
              (if endsWithStr (toLowerStr p) ".obb" then obbs ++ [p] else obbs)
              (if endsWithStr (toLowerStr p) ".obb" then zips
               else if endsWithStr (toLowerStr p) ".zip" then zips ++ [p] else zips) := by
          by_cases hobb : endsWithStr (toLowerStr p) ".obb" = true
          · simp [classifyLoop, hapk, haab, hobb]
          · by_cases hzip : endsWithStr (toLowerStr p) ".zip" = true <;>
              simp [classifyLoop, hapk, haab, hobb, hzip]
        rw [hred]
        exact ih _ _ _ _ (by rw [hcount.1, hcount.2] at h; exact h)

/-- Top-level classification under a conflicting listing: some conflict error
results (either from inside the loop or from the mutual-exclusion check). -/
theorem classifyAssets_conflict (getApk getAab : String → Except PErr PackageInfo)
    (hA : ∀ p, ∃ i, getApk p = .ok i) (hB : ∀ p, ∃ i, getAab p = .ok i)
    (assets : List String)
    (h : 2 ≤ countSuffix ".apk" assets ∨ 2 ≤ countSuffix ".aab" assets ∨
         (1 ≤ countSuffix ".apk" assets ∧ 1 ≤ countSuffix ".aab" assets)) :
    ∃ e, classifyAssets getApk getAab assets = .error e ∧ e.isConflict = true := by
  have hmain := classifyLoop_conflict getApk getAab hA hB assets none none [] []
    (by simpa [optCount] using h)
  rcases hmain with ⟨e, he, hc⟩ | ⟨s, hs, h1, h2⟩
  · exact ⟨e, by simp [classifyAssets, he], hc⟩
  · rcases Option.isSome_iff_exists.mp h1 with ⟨a, ha⟩
    rcases Option.isSome_iff_exists.mp h2 with ⟨b, hb⟩
    exact ⟨.apkAndAabConflict, by simp [classifyAssets, hs, ha, hb], rfl⟩

/-- With at most one candidate of each kind and none at all of one kind, the
classification loop neither raises a conflict error (given that the
extraction oracles never do) nor completes with both primary slots
filled. -/
theorem classifyLoop_no_conflict (getApk getAab : String → Except PErr PackageInfo)
    (hA : ∀ p e, getApk p = .error e → e.isConflict = false)
    (hB : ∀ p e, getAab p = .error e → e.isConflict = false)
    (assets : List String) :
    ∀ (apkInfo aabInfo : Option PackageInfo) (obbs zips : List String),
    countSuffix ".apk" assets + optCount apkInfo ≤ 1 →
    countSuffix ".aab" assets + optCount aabInfo ≤ 1 →
    (countSuffix ".apk" assets + optCount apkInfo = 0 ∨
     countSuffix ".aab" assets + optCount aabInfo = 0) →
    (∀ e, classifyLoop getApk getAab assets apkInfo aabInfo obbs zips = .error e →
          e.isConflict = false) ∧
    (∀ s, classifyLoop getApk getAab assets apkInfo aabInfo obbs zips = .ok s →
          s.apkInfo = none ∨ s.aabInfo = none) := by
  induction assets with
  | nil =>
    intro apkInfo aabInfo obbs zips h1 h2 h3
    constructor
    · intro e he
      simp [classifyLoop] at he
    · intro s hs
      simp only [classifyLoop, Except.ok.injEq] at hs
      subst hs
      cases apkInfo <;> cases aabInfo <;> simp [optCount, countSuffix] at h3 ⊢
  | cons p rest ih =>
    intro apkInfo aabInfo obbs zips h1 h2 h3
    by_cases hapk : endsWithStr (toLowerStr p) ".apk" = true
    · have haab : ¬ endsWithStr (toLowerStr p) ".aab" = true :=
        fun hc => not_apk_and_aab (toLowerStr p) hapk hc
      cases hinfo : apkInfo with
      | some prev =>
        exfalso
        rw [countSuffix_cons] at h1
        simp [hapk, hinfo, optCount] at h1
      | none =>
        subst hinfo
        have hc1 : countSuffix ".apk" (p :: rest) = 1 + countSuffix ".apk" rest := by
          rw [countSuffix_cons]; simp [hapk]
        have hc2 : countSuffix ".aab" (p :: rest) = countSuffix ".aab" rest := by
          rw [countSuffix_cons]; simp [haab]
        rw [hc1] at h1 h3
        rw [hc2] at h2 h3
        cases hcall : getApk p with
        | error e0 =>
          constructor
          · intro e he
            simp [classifyLoop, hapk, hcall] at he
            exact he ▸ hA p e0 hcall
          · intro s hs
            simp [classifyLoop, hapk, hcall] at hs
        | ok i =>
          have hred : classifyLoop getApk getAab (p :: rest) none aabInfo obbs zips =
              classifyLoop getApk getAab rest (some i) aabInfo obbs zips := by
            simp [classifyLoop, hapk, hcall]
          rw [hred]
          apply ih
          · simp only [optCount_none, optCount_some] at h1 ⊢; omega
          · exact h2
          · rcases h3 with h3 | h3
            · exact absurd h3 (by simp)
            · exact Or.inr h3
    · by_cases haab : endsWithStr (toLowerStr p) ".aab" = true
      · cases hinfo : aabInfo with
        | some prev =>
          exfalso
          rw [countSuffix_cons] at h2
          simp [haab, hinfo, optCount] at h2
        | none =>
          subst hinfo
          have hc1 : countSuffix ".apk" (p :: rest) = countSuffix ".apk" rest := by
            rw [countSuffix_cons]; simp [hapk]
          have hc2 : countSuffix ".aab" (p :: rest) = 1 + countSuffix ".aab" rest := by
            rw [countSuffix_cons]; simp [haab]
          rw [hc1] at h1 h3
          rw [hc2] at h2 h3
          cases hcall : getAab p with
          | error e0 =>
            constructor
            · intro e he
              simp [classifyLoop, hapk, haab, hcall] at he
              exact he ▸ hB p e0 hcall
            · intro s hs
              simp [classifyLoop, hapk, haab, hcall] at hs
          | ok i =>
            have hred : classifyLoop getApk getAab (p :: rest) apkInfo none obbs zips =
                classifyLoop getApk getAab rest apkInfo (some i) obbs zips := by
              simp [classifyLoop, hapk, haab, hcall]
            rw [hred]
            apply ih
            · exact h1
            · simp only [optCount_none, optCount_some] at h2 ⊢; omega
            · rcases h3 with h3 | h3
              · exact Or.inl h3
              · exact absurd h3 (by simp)
      · have hc1 : countSuffix ".apk" (p :: rest) = countSuffix ".apk" rest := by
          rw [countSuffix_cons]; simp [hapk]
        have hc2 : countSuffix ".aab" (p :: rest) = countSuffix ".aab" rest := by
          rw [countSuffix_cons]; simp [haab]
        rw [hc1] at h1 h3
        rw [hc2] at h2 h3
        have hred : classifyLoop getApk getAab (p :: rest) apkInfo aabInfo obbs zips =
            classifyLoop getApk getAab rest apkInfo aabInfo
              (if endsWithStr (toLowerStr p) ".obb" then obbs ++ [p] else obbs)
              (if endsWithStr (toLowerStr p) ".obb" then zips
               else if endsWithStr (toLowerStr p) ".zip" then zips ++ [p] else zips) := by
          by_cases hobb : endsWithStr (toLowerStr p) ".obb" = true
          · simp [classifyLoop, hapk, haab, hobb]
          · by_cases hzip : endsWithStr (toLowerStr p) ".zip" = true <;>
              simp [classifyLoop, hapk, haab, hobb, hzip]
        rw [hred]
        exact ih _ _ _ _ h1 h2 h3

/-- Top-level classification with exactly one primary candidate of exactly
one kind never raises a conflict error. -/
theorem classifyAssets_no_conflict (getApk getAab : String → Except PErr PackageInfo)
    (hA : ∀ p e, getApk p = .error e → e.isConflict = false)
    (hB : ∀ p e, getAab p = .error e → e.isConflict = false)
    (assets : List String)
    (h1 : countSuffix ".apk" assets ≤ 1) (h2 : countSuffix ".aab" assets ≤ 1)
    (h3 : countSuffix ".apk" assets = 0 ∨ countSuffix ".aab" assets = 0) :
    ∀ e, classifyAssets getApk getAab assets = .error e → e.isConflict = false := by
  intro e he
  have hloop := classifyLoop_no_conflict getApk getAab hA hB assets none none [] []
    (by simpa [optCount] using h1) (by simpa [optCount] using h2)
    (by simpa [optCount] using h3)
  unfold classifyAssets at he
  cases hres : classifyLoop getApk getAab assets none none [] [] with
  | error e0 =>
    rw [hres] at he
    simp at he
    exact he ▸ hloop.1 e0 hres
  | ok s =>
    rw [hres] at he
    rcases hloop.2 s hres with hn | hn <;> simp [hn] at he

/-! ## Error-class lemmas: no phase outside classification raises a conflict
error -/

theorem computeUserFraction_error (input : Option (Option ℚ)) (st : String) :
    ∀ e, computeUserFraction input st = .error e → e = .invalidUserFraction := by
  intro e h
  unfold computeUserFraction at h
  repeat' split at h
  all_goals simp_all

theorem computePriority_error (input : Option (Option ℤ)) :
    ∀ e, computePriority input = .error e → e = .invalidInAppUpdatePriority := by
  intro e h
  unfold computePriority at h
  repeat' split at h
  all_goals simp_all

theorem configPhase_no_conflict (cfg : Config) :
    ∀ e, configPhase cfg = .error e → e.isConflict = false := by
  intro e h
  unfold configPhase at h
  split at h
  · injection h with h; exact h ▸ rfl
  · split at h
    · injection h with h; exact h ▸ rfl
    · split at h
      · injection h with h; exact h ▸ rfl
      · cases hu : computeUserFraction cfg.userFractionInput (effStatus cfg) with
        | error e0 =>
          rw [hu] at h
          injection h with h
          exact h ▸ (computeUserFraction_error _ _ e0 hu ▸ rfl)
        | ok pr =>
          rw [hu] at h
          cases hp : computePriority cfg.inAppUpdatePriorityInput with
          | error e1 =>
            rw [hp] at h
            injection h with h
            exact h ▸ (computePriority_error _ e1 hp ▸ rfl)
          | ok priority =>
            rw [hp] at h
            cases h

theorem apkPhase_no_conflict (s : AssetSet) (fsys : FS) (r : Remote) :
    ∀ e, (apkPhase s fsys r).2 = .error e → e.isConflict = false := by
  intro e h
  unfold apkPhase at h
  repeat' split at h
  all_goals first
    | (injection h with h; exact h ▸ rfl)
    | simp_all

theorem aabPhase_no_conflict (s : AssetSet) (r : Remote) (prior : Option Nat) :
    ∀ e, (aabPhase s r prior).2 = .error e → e.isConflict = false := by
  intro e h
  unfold aabPhase at h
  repeat' split at h
  all_goals first
    | (injection h with h; exact h ▸ rfl)
    | simp_all

theorem primaryPhase_no_conflict (s : AssetSet) (fsys : FS) (r : Remote) :
    ∀ e, (primaryPhase s fsys r).2 = .error e → e.isConflict = false := by
  intro e h
  unfold primaryPhase at h
  split at h
  · rename_i t1 e0 heq
    injection h with h
    exact h ▸ apkPhase_no_conflict s fsys r e0 (by rw [heq])
  · rename_i t1 v1 heq
    split at h
    · rename_i t2 e0 heq2
      injection h with h
      exact h ▸ aabPhase_no_conflict s r v1 e0 (by rw [heq2])
    · rename_i t2 v2 heq2
      split at h
      all_goals first
        | (injection h with h; exact h ▸ rfl)
        | simp_all

theorem trackPhase_no_conflict (c : ConfigOk) (info : PackageInfo)
    (versionCode : Nat) (r : Remote) :
    ∀ e, (trackPhase c info versionCode r).2 = .error e → e.isConflict = false := by
  intro e h
  simp only [trackPhase] at h
  repeat' split at h
  all_goals first
    | (injection h with h; exact h ▸ rfl)
    | simp_all

theorem finalPhase_no_conflict (b : Bool) (r : Remote) :
    ∀ e, (finalPhase b r).2 = .error e → e.isConflict = false := by
  intro e h
  simp only [finalPhase] at h
  repeat' split at h
  all_goals first
    | (injection h with h; exact h ▸ rfl)
    | simp_all

theorem remotePhase_no_conflict (c : ConfigOk) (s : AssetSet) (fsys : FS)
    (r : Remote) :
    ∀ e, (remotePhase c s fsys r).2 = .error e → e.isConflict = false := by
  intro e h
  unfold remotePhase at h
  split at h
  · injection h with h; exact h ▸ rfl
  · rename_i info heq
    split at h
    · injection h with h; exact h ▸ rfl
    · split at h
      · injection h with h; exact h ▸ rfl
      · split at h
        · rename_i t1 e0 heq1
          injection h with h
          exact h ▸ primaryPhase_no_conflict s fsys r e0 (by rw [heq1])
        · rename_i t1 vc heq1
          split at h
          · rename_i t3 e0 heq3
            injection h with h
            exact h ▸ trackPhase_no_conflict c info vc r e0 (by rw [heq3])
          · rename_i t3 u heq3
            split at h
            rename_i t5 res heq5
            exact finalPhase_no_conflict c.changesNotSentForReview r e
              (by rw [heq5]; exact h)

/-! ## Trace shape lemmas -/

/-- Discriminator for track-update requests. -/
def RemoteCall.isUpdateTrack : RemoteCall → Bool
  | .updateTrack _ _ => true
  | _ => false

/-- Discriminator for deobfuscation-upload requests. -/
def RemoteCall.isDeob : RemoteCall → Bool
  | .uploadDeobfuscation _ _ _ => true
  | _ => false

theorem mem_expansionCalls {vc : Nat} {files : List String} {x : RemoteCall}
    (h : x ∈ expansionCalls vc files) :
    ∃ ft obbPath, obbPath ∈ files ∧ expansionFileType obbPath = some ft ∧
      x = .uploadExpansion vc ft obbPath := by
  unfold expansionCalls at h
  rcases List.mem_filterMap.mp h with ⟨obbPath, hmem, hf⟩
  cases hft : expansionFileType obbPath with
  | none => rw [hft] at hf; cases hf
  | some ft =>
    rw [hft] at hf
    injection hf with hf
    exact ⟨ft, obbPath, hmem, hft, hf.symm⟩

theorem mem_symbolCalls {vc : Nat} {files : List String} {x : RemoteCall}
    (h : x ∈ symbolCalls vc files) :
    ∃ z, z ∈ files ∧ x = .uploadDeobfuscation vc (deobfuscationFileType z) z := by
  unfold symbolCalls at h
  rcases List.mem_map.mp h with ⟨z, hmem, hz⟩
  exact ⟨z, hmem, hz.symm⟩

theorem symbolCalls_mem {vc : Nat} {files : List String} {z : String}
    (h : z ∈ files) :
    RemoteCall.uploadDeobfuscation vc (deobfuscationFileType z) z ∈
      symbolCalls vc files := by
  unfold symbolCalls
  exact List.mem_map_of_mem _ h

theorem mem_listingCalls {md : Option MetadataValue} {x : RemoteCall}
    (h : x ∈ listingCalls md) :
    ∃ l, l ∈ listingsOf md ∧ x = .updateListing l.language := by
  unfold listingCalls at h
  rcases List.mem_map.mp h with ⟨l, hmem, hl⟩
  exact ⟨l, hmem, hl.symm⟩

theorem listingCalls_mem {md : Option MetadataValue} {l : Listing}
    (h : l ∈ listingsOf md) :
    RemoteCall.updateListing l.language ∈ listingCalls md := by
  unfold listingCalls
  exact List.mem_map_of_mem _ h

theorem mem_imageCalls {md : Option MetadataValue} {fsys : FS} {x : RemoteCall}
    (h : x ∈ imageCalls md fsys) :
    ∃ i, i ∈ imagesOf md ∧ fsys.fileExists i.path = true ∧
      x = .uploadImage i.language i.type i.path := by
  unfold imageCalls at h
  rcases List.mem_filterMap.mp h with ⟨i, hmem, hf⟩
  by_cases hex : fsys.fileExists i.path = true
  · rw [if_pos hex] at hf
    injection hf with hf
    exact ⟨i, hmem, hex, hf.symm⟩
  · rw [if_neg hex] at hf
    cases hf

theorem imageCalls_mem {md : Option MetadataValue} {fsys : FS} {i : ImageInput}
    (h : i ∈ imagesOf md) (hex : fsys.fileExists i.path = true) :
    RemoteCall.uploadImage i.language i.type i.path ∈ imageCalls md fsys := by
  unfold imageCalls
  exact List.mem_filterMap.mpr ⟨i, h, by rw [if_pos hex]⟩

theorem apkPhase_calls {s : AssetSet} {fsys : FS} {r : Remote} {x : RemoteCall}
    (h : x ∈ (apkPhase s fsys r).1) :
    x.isUpdateTrack = false ∧ x.isDeob = false := by
  unfold apkPhase at h
  split at h
  · simp at h
  · rename_i info
    split at h
    · simp at h
    · split at h
      · simp at h
        subst h
        exact ⟨rfl, rfl⟩
      · split at h
        · simp at h
          subst h
          exact ⟨rfl, rfl⟩
        · simp at h
          subst h
          exact ⟨rfl, rfl⟩
        · simp only [List.mem_append, List.mem_singleton] at h
          rcases h with h | h
          · subst h
            exact ⟨rfl, rfl⟩
          · rcases mem_expansionCalls h with ⟨ft, pa, hmem, hft, rfl⟩
            exact ⟨rfl, rfl⟩

theorem aabPhase_calls {s : AssetSet} {r : Remote} {prior : Option Nat}
    {x : RemoteCall} (h : x ∈ (aabPhase s r prior).1) :
    x.isUpdateTrack = false ∧ x.isDeob = false := by
  unfold aabPhase at h
  split at h
  · simp at h
  · rename_i info
    split at h
    · simp at h
      subst h
      exact ⟨rfl, rfl⟩
    · split at h
      all_goals
        simp at h
        subst h
        exact ⟨rfl, rfl⟩

theorem primaryPhase_calls {s : AssetSet} {fsys : FS} {r : Remote}
    {x : RemoteCall} (h : x ∈ (primaryPhase s fsys r).1) :
    x.isUpdateTrack = false ∧ x.isDeob = false := by
  unfold primaryPhase at h
  split at h
  · rename_i t1 e heq
    exact apkPhase_calls (x := x) (by rw [heq]; exact h)
  · rename_i t1 v1 heq
    split at h
    · rename_i t2 e heq2
      rw [List.mem_append] at h
      rcases h with h | h
      · exact apkPhase_calls (x := x) (by rw [heq]; exact h)
      · exact aabPhase_calls (x := x) (by rw [heq2]; exact h)
    · rename_i t2 v2 heq2
      split at h
      all_goals
        rw [List.mem_append] at h
        rcases h with h | h
        · exact apkPhase_calls (x := x) (by rw [heq]; exact h)
        · exact aabPhase_calls (x := x) (by rw [heq2]; exact h)

theorem finalPhase_calls {b : Bool} {r : Remote} {x : RemoteCall}
    (h : x ∈ (finalPhase b r).1) :
    x = .validateEdit ∨ x = .commitEdit b := by
  simp only [finalPhase] at h
  by_cases hv : r.validateOk <;> by_cases hc : r.commitOk <;>
    simp [hv, hc] at h <;> tauto

theorem trackPhase_updateTrack {c : ConfigOk} {info : PackageInfo}
    {versionCode : Nat} {r : Remote} {t : String} {rs : List TrackRelease}
    (h : RemoteCall.updateTrack t rs ∈ (trackPhase c info versionCode r).1) :
    t = c.track ∧ rs = [mkNewRelease c info versionCode] := by
  simp only [trackPhase] at h
  by_cases h1 : r.tracksListOk
  case neg => simp [h1] at h
  by_cases h2 : c.track ∈ r.trackNames
  case neg => simp [h1, h2] at h
  by_cases h3 : r.getTrackOk
  case neg => simp [h1, h2, h3] at h
  by_cases h4 : r.updateTrackOk <;> simp [h1, h2, h3, h4] at h <;> exact h

theorem trackPhase_getTrack {c : ConfigOk} {info : PackageInfo}
    {versionCode : Nat} {r : Remote} {t : String} {rs : List TrackRelease}
    (h : RemoteCall.updateTrack t rs ∈ (trackPhase c info versionCode r).1) :
    RemoteCall.getTrack c.track ∈ (trackPhase c info versionCode r).1 := by
  simp only [trackPhase] at h ⊢
  by_cases h1 : r.tracksListOk
  case neg => simp [h1] at h
  by_cases h2 : c.track ∈ r.trackNames
  case neg => simp [h1, h2] at h
  by_cases h3 : r.getTrackOk
  case neg => simp [h1, h2, h3] at h
  by_cases h4 : r.updateTrackOk <;> simp [h1, h2, h3, h4]

/-! ## Decomposition of the pipeline trace -/

theorem mem_main_trace {cfg : Config} {items releaseAssets : List String}
    {getApk getAab : String → Except PErr PackageInfo} {fsys : FS} {r : Remote}
    {x : RemoteCall}
    (h : x ∈ (main cfg items releaseAssets getApk getAab fsys r).1) :
    ∃ c s info,
      configPhase cfg = .ok c ∧
      assetPhase getApk getAab items releaseAssets = .ok s ∧
      primaryInfo s = some info ∧
      (x = .insertEdit info.packageName ∨
       x ∈ (primaryPhase s fsys r).1 ∨
       (∃ vc, (primaryPhase s fsys r).2 = .ok vc ∧
          (∀ y, y ∈ (trackPhase c info vc r).1 →
             y ∈ (main cfg items releaseAssets getApk getAab fsys r).1) ∧
          (x ∈ symbolCalls vc s.symbolFiles ∨
           x ∈ (trackPhase c info vc r).1 ∨
           x ∈ listingCalls c.metadata ∨
           x ∈ imageCalls c.metadata fsys ∨
           x ∈ (finalPhase c.changesNotSentForReview r).1))) := by
  cases hc : configPhase cfg with
  | error e => simp [main, hc] at h
  | ok c =>
  cases hs : assetPhase getApk getAab items releaseAssets with
  | error e => simp [main, hc, hs] at h
  | ok s =>
  have hmain : main cfg items releaseAssets getApk getAab fsys r =
      remotePhase c s fsys r := by
    simp [main, hc, hs]
  rw [hmain] at h ⊢
  cases hpi : primaryInfo s with
  | none =>
    simp only [remotePhase, hpi] at h
    simp at h
  | some info =>
  refine ⟨c, s, info, rfl, rfl, hpi, ?_⟩
  by_cases hpn : info.packageName = ""
  · simp only [remotePhase, hpi] at h
    rw [if_pos hpn] at h
    simp at h
  by_cases hins : (!r.insertOk) = true
  · simp only [remotePhase, hpi] at h
    rw [if_neg hpn, if_pos hins] at h
    simp at h
    exact Or.inl h
  rcases hpp : primaryPhase s fsys r with ⟨t1, res1⟩
  cases res1 with
  | error e =>
    simp only [remotePhase, hpi] at h
    rw [if_neg hpn, if_neg hins] at h
    simp only [hpp] at h
    simp only [List.mem_append, List.mem_singleton] at h
    rcases h with h | h
    · exact Or.inl h
    · exact Or.inr (Or.inl h)
  | ok vc =>
  rcases hpt : trackPhase c info vc r with ⟨t3, res3⟩
  have hsub : ∀ y, y ∈ (trackPhase c info vc r).1 →
      y ∈ (remotePhase c s fsys r).1 := by
    intro y hy
    rw [hpt] at hy
    simp only [remotePhase, hpi]
    rw [if_neg hpn, if_neg hins]
    simp only [hpp, hpt]
    cases res3 with
    | error e =>
      simp only [List.mem_append]
      exact Or.inr hy
    | ok u =>
      rcases hpf2 : finalPhase c.changesNotSentForReview r with ⟨t5, res5⟩
      simp only [hpf2, List.mem_append]
      exact Or.inl (Or.inl (Or.inr hy))
  cases res3 with
  | error e =>
    simp only [remotePhase, hpi] at h
    rw [if_neg hpn, if_neg hins] at h
    simp only [hpp, hpt] at h
    simp only [List.mem_append, List.mem_singleton] at h
    rcases h with ((h | h) | h) | h
    · exact Or.inl h
    · exact Or.inr (Or.inl h)
    · exact Or.inr (Or.inr ⟨vc, rfl, hsub, Or.inl h⟩)
    · exact Or.inr (Or.inr ⟨vc, rfl, hsub,
        Or.inr (Or.inl (by rw [hpt]; exact h))⟩)
  | ok u =>
  rcases hpf : finalPhase c.changesNotSentForReview r with ⟨t5, res5⟩
  simp only [remotePhase, hpi] at h
  rw [if_neg hpn, if_neg hins] at h
  simp only [hpp, hpt, hpf] at h
  simp only [List.mem_append, List.mem_singleton] at h
  rcases h with ((((h | h) | h) | h) | h | h) | h
  · exact Or.inl h
  · exact Or.inr (Or.inl h)
  · exact Or.inr (Or.inr ⟨vc, rfl, hsub, Or.inl h⟩)
  · exact Or.inr (Or.inr ⟨vc, rfl, hsub,
      Or.inr (Or.inl (by rw [hpt]; exact h))⟩)
  · exact Or.inr (Or.inr ⟨vc, rfl, hsub, Or.inr (Or.inr (Or.inl h))⟩)
  · exact Or.inr (Or.inr ⟨vc, rfl, hsub,
      Or.inr (Or.inr (Or.inr (Or.inl h)))⟩)
  · exact Or.inr (Or.inr ⟨vc, rfl, hsub,
      Or.inr (Or.inr (Or.inr (Or.inr h)))⟩)

/-! ## Version-code and classification result lemmas -/

theorem apkPhase_ok {s : AssetSet} {fsys : FS} {r : Remote} {v : Option Nat}
    (h : (apkPhase s fsys r).2 = .ok v) :
    (s.apkInfo = none ∧ v = none) ∨
    (s.apkInfo.isSome = true ∧ ∃ vc, v = some vc ∧ r.apkVersionCode = some vc) := by
  unfold apkPhase at h
  split at h
  · rename_i heq
    injection h with h
    exact Or.inl ⟨heq, h.symm⟩
  · rename_i info heq
    split at h
    · exact Except.noConfusion h
    · split at h
      · exact Except.noConfusion h
      · split at h
        · exact Except.noConfusion h
        · exact Except.noConfusion h
        · rename_i vc hne hvc
          injection h with h
          exact Or.inr ⟨by rw [heq]; rfl, vc, h.symm, hvc⟩

theorem aabPhase_ok {s : AssetSet} {r : Remote} {prior : Option Nat}
    {v : Option Nat} (h : (aabPhase s r prior).2 = .ok v) :
    (s.aabInfo = none ∧ v = prior) ∨
    (s.aabInfo.isSome = true ∧
     ∃ vc, v = some vc ∧ r.bundleVersionCode = some vc) := by
  unfold aabPhase at h
  split at h
  · rename_i heq
    injection h with h
    exact Or.inl ⟨heq, h.symm⟩
  · rename_i info heq
    split at h
    · exact Except.noConfusion h
    · split at h
      · exact Except.noConfusion h
      · exact Except.noConfusion h
      · rename_i vc hne hvc
        injection h with h
        exact Or.inr ⟨by rw [heq]; rfl, vc, h.symm, hvc⟩

theorem primaryPhase_ok {s : AssetSet} {fsys : FS} {r : Remote} {vc : Nat}
    (h : (primaryPhase s fsys r).2 = .ok vc) :
    (s.aabInfo.isSome = true ∧ r.bundleVersionCode = some vc) ∨
    (s.aabInfo = none ∧ s.apkInfo.isSome = true ∧
     r.apkVersionCode = some vc) := by
  unfold primaryPhase at h
  split at h
  · exact Except.noConfusion h
  · rename_i t1 v1 heq
    split at h
    · exact Except.noConfusion h
    · rename_i t2 v2 heq2
      split at h
      · exact Except.noConfusion h
      · exact Except.noConfusion h
      · rename_i vc2 hne
        injection h with h
        subst h
        have haab : (aabPhase s r v1).2 = .ok (some vc2) := by rw [heq2]
        rcases aabPhase_ok haab with ⟨hnone, hvp⟩ | ⟨hsome, vcx, hvx, hbundle⟩
        · have hapk : (apkPhase s fsys r).2 = .ok v1 := by rw [heq]
          rcases apkPhase_ok hapk with ⟨hnone2, hv1⟩ | ⟨hsome2, vcy, hvy, happly⟩
          · rw [hv1] at hvp
            exact Option.noConfusion hvp
          · rw [hvy] at hvp
            injection hvp with hvp
            exact Or.inr ⟨hnone, hsome2, hvp.symm ▸ happly⟩
        · injection hvx with hvx
          exact Or.inl ⟨hsome, hvx.symm ▸ hbundle⟩

theorem trackPhase_calls {c : ConfigOk} {info : PackageInfo}
    {versionCode : Nat} {r : Remote} {x : RemoteCall}
    (h : x ∈ (trackPhase c info versionCode r).1) :
    (∃ pn, x = .listTracks pn) ∨ (∃ t, x = .getTrack t) ∨
    (∃ t rs, x = .updateTrack t rs) := by
  simp only [trackPhase] at h
  by_cases h1 : r.tracksListOk
  case neg => simp [h1] at h; subst h; exact Or.inl ⟨_, rfl⟩
  by_cases h2 : c.track ∈ r.trackNames
  case neg => simp [h1, h2] at h; subst h; exact Or.inl ⟨_, rfl⟩
  by_cases h3 : r.getTrackOk
  case neg =>
    simp [h1, h2, h3] at h
    rcases h with h | h
    · subst h; exact Or.inl ⟨_, rfl⟩
    · subst h; exact Or.inr (Or.inl ⟨_, rfl⟩)
  by_cases h4 : r.updateTrackOk <;> simp [h1, h2, h3, h4] at h <;>
    (rcases h with h | h | h
     · subst h; exact Or.inl ⟨_, rfl⟩
     · subst h; exact Or.inr (Or.inl ⟨_, rfl⟩)
     · subst h; exact Or.inr (Or.inr ⟨_, _, rfl⟩))

theorem classifyAssets_ok_loop {getApk getAab : String → Except PErr PackageInfo}
    {releaseAssets : List String} {s : AssetSet}
    (h : classifyAssets getApk getAab releaseAssets = .ok s) :
    classifyLoop getApk getAab releaseAssets none none [] [] = .ok s := by
  unfold classifyAssets at h
  cases hres : classifyLoop getApk getAab releaseAssets none none [] [] with
  | error e => rw [hres] at h; exact Except.noConfusion h
  | ok s0 =>
    rw [hres] at h
    rcases h1 : s0.apkInfo with _ | a <;> rcases h2 : s0.aabInfo with _ | b <;>
      simp [h1, h2] at h <;> rw [h]

theorem classifyLoop_symbolFiles (getApk getAab : String → Except PErr PackageInfo)
    (assets : List String) :
    ∀ (apkInfo aabInfo : Option PackageInfo) (obbs zips : List String)
      (s : AssetSet),
      classifyLoop getApk getAab assets apkInfo aabInfo obbs zips = .ok s →
      ∀ z, z ∈ s.symbolFiles →
        z ∈ zips ∨ endsWithStr (toLowerStr z) ".zip" = true := by
  induction assets with
  | nil =>
    intro apkInfo aabInfo obbs zips s hs z hz
    injection hs with hs
    rw [← hs] at hz
    exact Or.inl hz
  | cons p rest ih =>
    intro apkInfo aabInfo obbs zips s hs z hz
    by_cases hapk : endsWithStr (toLowerStr p) ".apk" = true
    · cases hinfo : apkInfo with
      | some prev => rw [hinfo] at hs; simp [classifyLoop, hapk] at hs
      | none =>
        rw [hinfo] at hs
        cases hcall : getApk p with
        | error e0 => simp [classifyLoop, hapk, hcall] at hs
        | ok i =>
          rw [show classifyLoop getApk getAab (p :: rest) none aabInfo obbs zips =
              classifyLoop getApk getAab rest (some i) aabInfo obbs zips from
              by simp [classifyLoop, hapk, hcall]] at hs
          exact ih _ _ _ _ _ hs z hz
    · by_cases haab : endsWithStr (toLowerStr p) ".aab" = true
      · cases hinfo : aabInfo with
        | some prev => rw [hinfo] at hs; simp [classifyLoop, hapk, haab] at hs
        | none =>
          rw [hinfo] at hs
          cases hcall : getAab p with
          | error e0 => simp [classifyLoop, hapk, haab, hcall] at hs
          | ok i =>
            rw [show classifyLoop getApk getAab (p :: rest) apkInfo none obbs
                zips = classifyLoop getApk getAab rest apkInfo (some i) obbs
                zips from by simp [classifyLoop, hapk, haab, hcall]] at hs
            exact ih _ _ _ _ _ hs z hz
      · by_cases hobb : endsWithStr (toLowerStr p) ".obb" = true
        · rw [show classifyLoop getApk getAab (p :: rest) apkInfo aabInfo obbs
              zips = classifyLoop getApk getAab rest apkInfo aabInfo
              (obbs ++ [p]) zips from by simp [classifyLoop, hapk, haab, hobb]]
            at hs
          exact ih _ _ _ _ _ hs z hz
        · by_cases hzip : endsWithStr (toLowerStr p) ".zip" = true
          · rw [show classifyLoop getApk getAab (p :: rest) apkInfo aabInfo obbs
                zips = classifyLoop getApk getAab rest apkInfo aabInfo obbs
                (zips ++ [p]) from by simp [classifyLoop, hapk, haab, hobb,
                  hzip]] at hs
            rcases ih _ _ _ _ _ hs z hz with hmem | hsuf
            · rw [List.mem_append] at hmem
              rcases hmem with hmem | hmem
              · exact Or.inl hmem
              · rw [List.mem_singleton] at hmem
                subst hmem
                exact Or.inr hzip
            · exact Or.inr hsuf
          · rw [show classifyLoop getApk getAab (p :: rest) apkInfo aabInfo obbs
                zips = classifyLoop getApk getAab rest apkInfo aabInfo obbs
                zips from by simp [classifyLoop, hapk, haab, hobb, hzip]] at hs
            exact ih _ _ _ _ _ hs z hz

/-- Every request issued to the track-update endpoint originates from the
track phase, which submits the singleton release list built from
mkNewRelease, after having read the track with a get; the version code is
the one reported by the primary upload. -/
theorem main_updateTrack {cfg : Config} {items releaseAssets : List String}
    {getApk getAab : String → Except PErr PackageInfo} {fsys : FS} {r : Remote}
    {t : String} {rs : List TrackRelease}
    (h : RemoteCall.updateTrack t rs ∈
      (main cfg items releaseAssets getApk getAab fsys r).1) :
    ∃ c s info vc,
      configPhase cfg = .ok c ∧
      assetPhase getApk getAab items releaseAssets = .ok s ∧
      primaryInfo s = some info ∧
      (primaryPhase s fsys r).2 = .ok vc ∧
      t = c.track ∧ rs = [mkNewRelease c info vc] ∧
      RemoteCall.getTrack c.track ∈
        (main cfg items releaseAssets getApk getAab fsys r).1 := by
  rcases mem_main_trace h with ⟨c, s, info, hc, hs, hpi, hx⟩
  rcases hx with hx | hx | ⟨vc, hvc, hsub, hx⟩
  · exact RemoteCall.noConfusion hx
  · have hflag := primaryPhase_calls hx
    exact Bool.noConfusion hflag.1
  · rcases hx with hx | hx | hx | hx | hx
    · rcases mem_symbolCalls hx with ⟨z, hz, heq⟩
      exact RemoteCall.noConfusion heq
    · have hts := trackPhase_updateTrack hx
      exact ⟨c, s, info, vc, hc, hs, hpi, hvc, hts.1, hts.2,
        hsub _ (trackPhase_getTrack hx)⟩
    · rcases mem_listingCalls hx with ⟨l, hl, heq⟩
      exact RemoteCall.noConfusion heq
    · rcases mem_imageCalls hx with ⟨i, hi, hex, heq⟩
      exact RemoteCall.noConfusion heq
    · rcases finalPhase_calls hx with heq | heq <;>
        exact RemoteCall.noConfusion heq

/-! ## Concrete fixtures used by the witnesses -/

/-- A configuration with every check passing and all optional inputs unset. -/
def cfgW : Config :=
  ⟨"token", "credentials.json", none, "", "", "", none, none, none, false⟩

/-- The validated configuration that cfgW produces. -/
def cOkW : ConfigOk := ⟨"internal", "completed", none, false, none, "", none, false⟩

/-- An extraction oracle that always succeeds. -/
def getApkW : String → Except PErr PackageInfo :=
  fun p => .ok ⟨"com.example.app", "1.0", "42", p⟩

/-- An extraction oracle for bundles that always succeeds. -/
def getAabW : String → Except PErr PackageInfo :=
  fun p => .ok ⟨"com.example.app", "1.0", "42", p⟩

/-- A file system on which every path exists. -/
def fsW : FS := ⟨fun _ => true⟩

/-- A remote service for which every request succeeds. -/
def remoteW : Remote :=
  ⟨true, "edit-1", true, some 42, true, some 43, fun _ => true, fun _ => true,
   true, ["internal", "beta"], true, [], true, fun _ => true, fun _ => true,
   true, true⟩

/-! ## Claims -/

/-- C1: for every release-directory listing, if classification encounters
more than one file ending in .apk, more than one file ending in .aab, or at
least one of each, the pipeline fails with a conflicting-artifacts error and
issues no remote request at all — in particular no edit is opened
(hypotheses: the configuration phase passes, the raw directory listing is
nonempty, and metadata extraction succeeds); and a listing with exactly one
primary candidate of exactly one kind never triggers a conflicting-artifacts
error, whatever the remote service does, as long as extraction failures are
not themselves conflict errors (as in the source they never are). -/
theorem c1_conflicting_artifacts :
    (∀ cfg c items releaseAssets getApk getAab fsys r,
       configPhase cfg = .ok c → items ≠ [] →
       (∀ p, ∃ i, getApk p = .ok i) → (∀ p, ∃ i, getAab p = .ok i) →
       (2 ≤ countSuffix ".apk" releaseAssets ∨
        2 ≤ countSuffix ".aab" releaseAssets ∨
        (1 ≤ countSuffix ".apk" releaseAssets ∧
         1 ≤ countSuffix ".aab" releaseAssets)) →
       ∃ e, main cfg items releaseAssets getApk getAab fsys r = ([], .error e) ∧
            e.isConflict = true) ∧
    (∀ cfg items releaseAssets getApk getAab fsys r,
       (∀ p e, getApk p = .error e → e.isConflict = false) →
       (∀ p e, getAab p = .error e → e.isConflict = false) →
       ((countSuffix ".apk" releaseAssets = 1 ∧ countSuffix ".aab" releaseAssets = 0) ∨
        (countSuffix ".apk" releaseAssets = 0 ∧ countSuffix ".aab" releaseAssets = 1)) →
       ∀ e, (main cfg items releaseAssets getApk getAab fsys r).2 = .error e →
            e.isConflict = false) := by
  constructor
  · intro cfg c items releaseAssets getApk getAab fsys r hc hitems hA hB hcount
    obtain ⟨e, he, hconf⟩ :=
      classifyAssets_conflict getApk getAab hA hB releaseAssets hcount
    have hne : releaseAssets ≠ [] := by
      rcases hcount with h | h | ⟨h, _⟩
      · exact countSuffix_pos_ne_nil (le_trans one_le_two h)
      · exact countSuffix_pos_ne_nil (le_trans one_le_two h)
      · exact countSuffix_pos_ne_nil h
    have hasset : assetPhase getApk getAab items releaseAssets = .error e := by
      unfold assetPhase
      cases items with
      | nil => exact absurd rfl hitems
      | cons a l =>
        cases releaseAssets with
        | nil => exact absurd rfl hne
        | cons b m => simpa [List.isEmpty] using he
    refine ⟨e, ?_, hconf⟩
    simp [main, hc, hasset]
  · intro cfg items releaseAssets getApk getAab fsys r hA hB hcount e he
    unfold main at he
    cases hc : configPhase cfg with
    | error e0 =>
      rw [hc] at he
      simp at he
      exact he ▸ configPhase_no_conflict cfg e0 hc
    | ok c =>
      rw [hc] at he
      cases hs : assetPhase getApk getAab items releaseAssets with
      | error e0 =>
        rw [hs] at he
        simp at he
        have hnc : e0.isConflict = false := by
          unfold assetPhase at hs
          split at hs
          · injection hs with hs; exact hs ▸ rfl
          · split at hs
            · injection hs with hs; exact hs ▸ rfl
            · rcases hcount with ⟨ha, hb⟩ | ⟨ha, hb⟩
              · exact classifyAssets_no_conflict getApk getAab hA hB releaseAssets
                  (le_of_eq ha) (by omega) (Or.inr hb) e0 hs
              · exact classifyAssets_no_conflict getApk getAab hA hB releaseAssets
                  (by omega) (le_of_eq hb) (Or.inl ha) e0 hs
        exact he ▸ hnc
      | ok s =>
        rw [hs] at he
        exact remotePhase_no_conflict c s fsys r e he

/-- Witness for c1_conflicting_artifacts: a listing holding one APK and one
AAB fails with a conflict error before any remote request, and a listing
holding exactly one AAB never yields a conflict error. -/
theorem c1_conflicting_artifacts_witness :
    (∃ e, main cfgW ["a.apk", "b.aab"] ["a.apk", "b.aab"] getApkW getAabW fsW
            remoteW = ([], .error e) ∧ e.isConflict = true) ∧
    (∀ e, (main cfgW ["app.aab"] ["app.aab"] getApkW getAabW fsW remoteW).2 =
            .error e → e.isConflict = false) := by
  constructor
  · exact c1_conflicting_artifacts.1 cfgW cOkW ["a.apk", "b.aab"]
      ["a.apk", "b.aab"] getApkW getAabW fsW remoteW rfl (by decide)
      (fun p => ⟨_, rfl⟩) (fun p => ⟨_, rfl⟩) (by decide)
  · exact c1_conflicting_artifacts.2 cfgW ["app.aab"] ["app.aab"] getApkW
      getAabW fsW remoteW (fun p e h => Except.noConfusion h)
      (fun p e h => Except.noConfusion h) (by decide)

/-- A concrete release-metadata value matching the shape the orchestrator
reads (one listing, release notes, country targeting and one image). -/
def listingW : Listing := ⟨"en-US", "App", "Full", "Short", none, []⟩

/-- A concrete image entry of the runtime metadata.images array. -/
def imgW : ImageInput := ⟨"en-US", "icon", "assets/icon.png"⟩

/-- A concrete metadata value exercising every optional section. -/
def mdW : MetadataValue :=
  ⟨some (.one listingW), some (.one ⟨"en-US", "Bug fixes."⟩),
   some ⟨some ["US"], some true⟩, some [imgW]⟩

/-- C2: whenever the pipeline submits a track update, the release list it
submits contains the newly constructed release exactly once (it is the
singleton of mkNewRelease), and that release's versionCodes field is exactly
the one-element list holding the version code reported by the
primary-artifact upload response (the bundle response when an AAB was
uploaded, otherwise the APK response). -/
theorem c2_track_update_singleton :
    ∀ cfg items releaseAssets getApk getAab fsys r t rs,
      RemoteCall.updateTrack t rs ∈
        (main cfg items releaseAssets getApk getAab fsys r).1 →
      ∃ c s info vc,
        configPhase cfg = .ok c ∧
        assetPhase getApk getAab items releaseAssets = .ok s ∧
        primaryInfo s = some info ∧
        rs = [mkNewRelease c info vc] ∧
        rs.count (mkNewRelease c info vc) = 1 ∧
        (mkNewRelease c info vc).versionCodes = [Nat.repr vc] ∧
        (s.aabInfo.isSome = true → r.bundleVersionCode = some vc) ∧
        (s.aabInfo = none → r.apkVersionCode = some vc) := by
  intro cfg items releaseAssets getApk getAab fsys r t rs h
  rcases main_updateTrack h with ⟨c, s, info, vc, hc, hs, hpi, hvc, ht, hrs, hget⟩
  rcases primaryPhase_ok hvc with ⟨hb1, hb2⟩ | ⟨hb1, hb2, hb3⟩
  · refine ⟨c, s, info, vc, hc, hs, hpi, hrs, by rw [hrs]; simp, rfl,
      fun _ => hb2, fun hn => ?_⟩
    rw [hn] at hb1
    exact Bool.noConfusion hb1
  · refine ⟨c, s, info, vc, hc, hs, hpi, hrs, by rw [hrs]; simp, rfl,
      fun hsome => ?_, fun _ => hb3⟩
    rw [hb1] at hsome
    exact Bool.noConfusion hsome

/-- Witness for c2_track_update_singleton: a concrete bundle-only run whose
track update carries exactly the one new release with the bundle's reported
version code. -/
theorem c2_track_update_singleton_witness :
    ∃ c s info vc,
      configPhase cfgW = .ok c ∧
      assetPhase getApkW getAabW ["app.aab"] ["app.aab"] = .ok s ∧
      primaryInfo s = some info ∧
      [({ name := "42 (1.0)", status := "completed", versionCodes := ["43"],
          userFraction := none, releaseNotes := none, countryTargeting := none,
          inAppUpdatePriority := none } : TrackRelease)] =
        [mkNewRelease c info vc] ∧
      List.count (mkNewRelease c info vc)
        [({ name := "42 (1.0)", status := "completed", versionCodes := ["43"],
            userFraction := none, releaseNotes := none,
            countryTargeting := none,
            inAppUpdatePriority := none } : TrackRelease)] = 1 ∧
      (mkNewRelease c info vc).versionCodes = [Nat.repr vc] ∧
      (s.aabInfo.isSome = true → remoteW.bundleVersionCode = some vc) ∧
      (s.aabInfo = none → remoteW.apkVersionCode = some vc) :=
  c2_track_update_singleton cfgW ["app.aab"] ["app.aab"] getApkW getAabW fsW
    remoteW "internal"
    [({ name := "42 (1.0)", status := "completed", versionCodes := ["43"],
        userFraction := none, releaseNotes := none, countryTargeting := none,
        inAppUpdatePriority := none } : TrackRelease)] (by decide)

/-- C9 (implicit): the track-merge policy implemented is
replace-with-singleton.  The pipeline's entire observable behaviour is
invariant under the releases already on the track (they are fetched but
discarded), and although the current track state is read (the getTrack
request for the same track is in the trace), the submitted request body is
the singleton list holding only the newly constructed release. -/
theorem c9_replace_with_singleton :
    (∀ cfg items releaseAssets getApk getAab fsys r es,
       main cfg items releaseAssets getApk getAab fsys
         { r with existingReleases := es } =
         main cfg items releaseAssets getApk getAab fsys r) ∧
    (∀ cfg items releaseAssets getApk getAab fsys r t rs,
       RemoteCall.updateTrack t rs ∈
         (main cfg items releaseAssets getApk getAab fsys r).1 →
       RemoteCall.getTrack t ∈
         (main cfg items releaseAssets getApk getAab fsys r).1 ∧
       ∃ c s info vc, configPhase cfg = .ok c ∧
         assetPhase getApk getAab items releaseAssets = .ok s ∧
         primaryInfo s = some info ∧ t = c.track ∧
         rs = [mkNewRelease c info vc]) := by
  constructor
  · intro cfg items releaseAssets getApk getAab fsys r es
    rfl
  · intro cfg items releaseAssets getApk getAab fsys r t rs h
    rcases main_updateTrack h with
      ⟨c, s, info, vc, hc, hs, hpi, hvc, ht, hrs, hget⟩
    exact ⟨ht ▸ hget, c, s, info, vc, hc, hs, hpi, ht, hrs⟩

/-- Witness for c9_replace_with_singleton: with two releases already on the
track, the run's requests and outcome are the same as with none, and the
concrete track update still carries only the new release. -/
theorem c9_replace_with_singleton_witness :
    main cfgW ["app.aab"] ["app.aab"] getApkW getAabW fsW
      { remoteW with existingReleases :=
          [⟨"old-1", "completed", ["1"], none, none, none, none⟩,
           ⟨"old-2", "inProgress", ["2"], some 1, none, none, none⟩] } =
      main cfgW ["app.aab"] ["app.aab"] getApkW getAabW fsW remoteW :=
  c9_replace_with_singleton.1 cfgW ["app.aab"] ["app.aab"] getApkW getAabW fsW
    remoteW
    [⟨"old-1", "completed", ["1"], none, none, none, none⟩,
     ⟨"old-2", "inProgress", ["2"], some 1, none, none, none⟩]

/-- C7: a run whose raw release-directory listing is empty issues no
remote-service request at all, and (when the configuration checks pass)
fails with the directory-empty error: the emptiness check strictly precedes
the first remote call. -/
theorem c7_empty_directory_before_remote :
    ∀ cfg items releaseAssets getApk getAab fsys r,
      items = [] →
      (main cfg items releaseAssets getApk getAab fsys r).1 = [] ∧
      (∀ c, configPhase cfg = .ok c →
        (main cfg items releaseAssets getApk getAab fsys r).2 =
          .error .emptyReleaseDirectory) := by
  intro cfg items releaseAssets getApk getAab fsys r hitems
  subst hitems
  constructor
  · cases hc : configPhase cfg with
    | error e => simp [main, hc]
    | ok c => simp [main, hc, assetPhase]
  · intro c hc
    simp [main, hc, assetPhase]

/-- Witness for c7_empty_directory_before_remote: the concrete empty listing
issues nothing and fails with the directory-empty error. -/
theorem c7_empty_directory_before_remote_witness :
    (main cfgW [] ["stray.apk"] getApkW getAabW fsW remoteW).1 = [] ∧
    (main cfgW [] ["stray.apk"] getApkW getAabW fsW remoteW).2 =
      .error .emptyReleaseDirectory :=
  ⟨(c7_empty_directory_before_remote cfgW [] ["stray.apk"] getApkW getAabW fsW
      remoteW rfl).1,
   (c7_empty_directory_before_remote cfgW [] ["stray.apk"] getApkW getAabW fsW
      remoteW rfl).2 cOkW rfl⟩

/-- C10 (implicit): classification only ever places paths whose lowercase
form ends in .zip into the symbol-file list, the type-selection expression
picks nativeCode exactly for such paths, and consequently every
deobfuscation upload the pipeline ever issues carries type nativeCode — the
proguard alternative is unreachable. -/
theorem c10_deobfuscation_nativeCode :
    (∀ getApk getAab releaseAssets s,
       classifyAssets getApk getAab releaseAssets = .ok s →
       ∀ z, z ∈ s.symbolFiles →
         endsWithStr (toLowerStr z) ".zip" = true ∧
         deobfuscationFileType z = "nativeCode") ∧
    (∀ cfg items releaseAssets getApk getAab fsys r vc ft p,
       RemoteCall.uploadDeobfuscation vc ft p ∈
         (main cfg items releaseAssets getApk getAab fsys r).1 →
       ft = "nativeCode") := by
  have hcls : ∀ (getApk getAab : String → Except PErr PackageInfo)
      (releaseAssets : List String) (s : AssetSet),
      classifyAssets getApk getAab releaseAssets = .ok s →
      ∀ z, z ∈ s.symbolFiles →
        endsWithStr (toLowerStr z) ".zip" = true ∧
        deobfuscationFileType z = "nativeCode" := by
    intro getApk getAab releaseAssets s hok z hz
    have hloop := classifyAssets_ok_loop hok
    rcases classifyLoop_symbolFiles getApk getAab releaseAssets none none [] []
        s hloop z hz with hmem | hsuf
    · exact absurd hmem (List.not_mem_nil z)
    · exact ⟨hsuf, by unfold deobfuscationFileType; rw [if_pos hsuf]⟩
  refine ⟨hcls, ?_⟩
  intro cfg items releaseAssets getApk getAab fsys r vc ft p h
  rcases mem_main_trace h with ⟨c, s, info, hc, hs, hpi, hx⟩
  rcases hx with hx | hx | ⟨vc2, hvc2, hsub, hx⟩
  · exact RemoteCall.noConfusion hx
  · have hflag := primaryPhase_calls hx
    exact Bool.noConfusion hflag.2
  · rcases hx with hx | hx | hx | hx | hx
    · rcases mem_symbolCalls hx with ⟨z, hz, heq⟩
      injection heq with h1 h2 h3
      have hzip : classifyAssets getApk getAab releaseAssets = .ok s := by
        unfold assetPhase at hs
        split at hs
        · exact Except.noConfusion hs
        · split at hs
          · exact Except.noConfusion hs
          · exact hs
      have := (hcls getApk getAab releaseAssets s hzip z hz).2
      rw [h2, this]
    · rcases trackPhase_calls hx with ⟨pn, heq⟩ | ⟨t0, heq⟩ | ⟨t0, rs0, heq⟩ <;>
        exact RemoteCall.noConfusion heq
    · rcases mem_listingCalls hx with ⟨l, hl, heq⟩
      exact RemoteCall.noConfusion heq
    · rcases mem_imageCalls hx with ⟨i, hi, hex, heq⟩
      exact RemoteCall.noConfusion heq
    · rcases finalPhase_calls hx with heq | heq <;>
        exact RemoteCall.noConfusion heq

/-- Witness for c10_deobfuscation_nativeCode: the concrete APK run with a
mapping.zip symbol file classifies it with the .zip suffix and nativeCode
type, and its concrete deobfuscation request carries nativeCode. -/
theorem c10_deobfuscation_nativeCode_witness :
    (endsWithStr (toLowerStr "MAPPING.ZIP") ".zip" = true ∧
     deobfuscationFileType "MAPPING.ZIP" = "nativeCode") ∧
    "nativeCode" = "nativeCode" :=
  ⟨(c10_deobfuscation_nativeCode.1 getApkW getAabW ["app.apk", "MAPPING.ZIP"]
      ⟨some ⟨"com.example.app", "1.0", "42", "app.apk"⟩, none, [],
       ["MAPPING.ZIP"]⟩ rfl "MAPPING.ZIP" (by decide)),
   c10_deobfuscation_nativeCode.2 cfgW ["app.apk", "MAPPING.ZIP"]
     ["app.apk", "MAPPING.ZIP"] getApkW getAabW fsW remoteW 42 "nativeCode"
     "MAPPING.ZIP" (by decide)⟩

theorem effStatus_update_userFraction (cfg : Config) (v : Option (Option ℚ)) :
    effStatus { cfg with userFractionInput := v } = effStatus cfg := rfl

/-- C4: an invalid user-fraction input (NaN or outside the closed interval
from 0 to 1) makes the run fail with the configuration error before any
remote request; a valid value with a release status other than inProgress or
halted is dropped to undefined with a warning recorded — so the new release
carries no user fraction; and with status inProgress or halted the parsed
value is carried into the new release's userFraction field. -/
theorem c4_user_fraction :
    (∀ cfg items releaseAssets getApk getAab fsys r c0,
       configPhase { cfg with userFractionInput := none } = .ok c0 →
       (cfg.userFractionInput = some none ∨
        ∃ v, cfg.userFractionInput = some (some v) ∧ (v < 0 ∨ 1 < v)) →
       main cfg items releaseAssets getApk getAab fsys r =
         ([], .error .invalidUserFraction)) ∧
    (∀ cfg v c, cfg.userFractionInput = some (some v) → 0 ≤ v → v ≤ 1 →
       effStatus cfg ≠ "inProgress" → effStatus cfg ≠ "halted" →
       configPhase cfg = .ok c →
       c.userFraction = none ∧ c.userFractionWarned = true ∧
       ∀ info vc, (mkNewRelease c info vc).userFraction = none) ∧
    (∀ cfg v c, cfg.userFractionInput = some (some v) → 0 ≤ v → v ≤ 1 →
       (effStatus cfg = "inProgress" ∨ effStatus cfg = "halted") →
       configPhase cfg = .ok c →
       c.userFraction = some v ∧ c.userFractionWarned = false ∧
       ∀ info vc, (mkNewRelease c info vc).userFraction = some v) := by
  refine ⟨?_, ?_, ?_⟩
  · intro cfg items releaseAssets getApk getAab fsys r c0 hpre hbad
    unfold configPhase at hpre
    split at hpre
    · exact Except.noConfusion hpre
    · split at hpre
      · exact Except.noConfusion hpre
      · split at hpre
        · exact Except.noConfusion hpre
        · rename_i h1 h2 h3
          simp only [effStatus_update_userFraction] at h1 h2 h3
          have hcfg : configPhase cfg = .error .invalidUserFraction := by
            unfold configPhase
            rw [if_neg h1, if_neg h2, if_neg h3]
            rcases hbad with hb | ⟨v, hb, hv⟩
            · rw [hb]
              rfl
            · rw [hb]
              rcases hv with hv | hv <;> simp [computeUserFraction, hv]
          simp [main, hcfg]
  · intro cfg v c hin h0 h1 hs1 hs2 hcfg
    have hcu : computeUserFraction cfg.userFractionInput (effStatus cfg) =
        .ok (none, true) := by
      rw [hin]
      simp only [computeUserFraction]
      rw [if_neg (by simp [not_lt.mpr h0, not_lt.mpr h1]),
          if_pos (by simp [hs1, hs2])]
    unfold configPhase at hcfg
    split at hcfg
    · exact Except.noConfusion hcfg
    · split at hcfg
      · exact Except.noConfusion hcfg
      · split at hcfg
        · exact Except.noConfusion hcfg
        · simp only [hcu] at hcfg
          cases hp : computePriority cfg.inAppUpdatePriorityInput with
          | error e =>
            simp only [hp] at hcfg
            exact Except.noConfusion hcfg
          | ok pr =>
            simp only [hp] at hcfg
            injection hcfg with hcfg
            subst hcfg
            exact ⟨rfl, rfl, fun info vc => rfl⟩
  · intro cfg v c hin h0 h1 hst hcfg
    have hcu : computeUserFraction cfg.userFractionInput (effStatus cfg) =
        .ok (some v, false) := by
      rw [hin]
      simp only [computeUserFraction]
      rw [if_neg (by simp [not_lt.mpr h0, not_lt.mpr h1]),
          if_neg (by rcases hst with hst | hst <;> simp [hst])]
    unfold configPhase at hcfg
    split at hcfg
    · exact Except.noConfusion hcfg
    · split at hcfg
      · exact Except.noConfusion hcfg
      · split at hcfg
        · exact Except.noConfusion hcfg
        · simp only [hcu] at hcfg
          cases hp : computePriority cfg.inAppUpdatePriorityInput with
          | error e =>
            simp only [hp] at hcfg
            exact Except.noConfusion hcfg
          | ok pr =>
            simp only [hp] at hcfg
            injection hcfg with hcfg
            subst hcfg
            exact ⟨rfl, rfl, fun info vc => rfl⟩

/-- Validated configuration with the fraction dropped and the warning
recorded. -/
def cWarnW : ConfigOk :=
  { cOkW with userFraction := none, userFractionWarned := true }

/-- Validated configuration for a staged rollout carrying the fraction. -/
def cInProgW : ConfigOk :=
  { cOkW with releaseStatus := "inProgress", userFraction := some 1 }

/-- Witness for c4_user_fraction: a fraction of 2 with status completed
fails the run with the configuration error; a fraction of 1 with status
completed is dropped with a warning and the new release carries none; a
fraction of 1 with status inProgress is carried into the new release. -/
theorem c4_user_fraction_witness :
    main { cfgW with userFractionInput := some (some 2) } ["a.apk"] ["a.apk"]
        getApkW getAabW fsW remoteW = ([], .error .invalidUserFraction) ∧
    (cWarnW.userFraction = none ∧ cWarnW.userFractionWarned = true ∧
     ∀ info vc, (mkNewRelease cWarnW info vc).userFraction = none) ∧
    (cInProgW.userFraction = some 1 ∧ cInProgW.userFractionWarned = false ∧
     ∀ info vc, (mkNewRelease cInProgW info vc).userFraction = some 1) :=
  ⟨c4_user_fraction.1 { cfgW with userFractionInput := some (some 2) }
     ["a.apk"] ["a.apk"] getApkW getAabW fsW remoteW cOkW rfl
     (Or.inr ⟨2, rfl, Or.inr (by decide)⟩),
   c4_user_fraction.2.1 { cfgW with userFractionInput := some (some 1) } 1
     cWarnW rfl (by decide) (by decide) (by decide) (by decide) rfl,
   c4_user_fraction.2.2
     { cfgW with status := "inProgress", userFractionInput := some (some 1) }
     1 cInProgW rfl (by decide) (by decide) (Or.inl (by decide)) rfl⟩


/-- Exact requests and outcome of a run in which the configuration,
classification, edit insert, primary upload and every primary-transaction
call succeed; the auxiliary oracles (deobfuscation, listing and image
uploads) are unconstrained. -/
theorem main_all_ok_eq {cfg : Config} {items releaseAssets : List String}
    {getApk getAab : String → Except PErr PackageInfo} {fsys : FS} {r : Remote}
    {c : ConfigOk} {s : AssetSet} {info : PackageInfo} {t1 : List RemoteCall}
    {vc : Nat}
    (hc : configPhase cfg = .ok c)
    (hs : assetPhase getApk getAab items releaseAssets = .ok s)
    (hpi : primaryInfo s = some info) (hpn : info.packageName ≠ "")
    (hins : r.insertOk = true)
    (hpp : primaryPhase s fsys r = (t1, .ok vc))
    (hlist : r.tracksListOk = true) (htr : c.track ∈ r.trackNames)
    (hget : r.getTrackOk = true) (hupd : r.updateTrackOk = true)
    (hval : r.validateOk = true) (hcom : r.commitOk = true) :
    main cfg items releaseAssets getApk getAab fsys r =
      ([RemoteCall.insertEdit info.packageName] ++ t1 ++
         symbolCalls vc s.symbolFiles ++
         ([RemoteCall.listTracks info.packageName] ++
            [RemoteCall.getTrack c.track] ++
            [RemoteCall.updateTrack c.track [mkNewRelease c info vc]]) ++
         (listingCalls c.metadata ++ imageCalls c.metadata fsys) ++
         ([RemoteCall.validateEdit] ++
            [RemoteCall.commitEdit c.changesNotSentForReview]),
       .ok ()) := by
  have htp : trackPhase c info vc r =
      ([RemoteCall.listTracks info.packageName] ++
         [RemoteCall.getTrack c.track] ++
         [RemoteCall.updateTrack c.track [mkNewRelease c info vc]], .ok ()) := by
    unfold trackPhase
    rw [if_neg (by simp [hlist]), if_neg (by simp [htr]),
        if_neg (by simp [hget]), if_neg (by simp [hupd])]
  have hfp : finalPhase c.changesNotSentForReview r =
      ([RemoteCall.validateEdit] ++
         [RemoteCall.commitEdit c.changesNotSentForReview], .ok ()) := by
    unfold finalPhase
    rw [if_neg (by simp [hval]), if_neg (by simp [hcom])]
  simp only [main, hc, hs, remotePhase, hpi]
  rw [if_neg hpn, if_neg (by simp [hins])]
  simp only [hpp, htp, hfp]

/-- C5: once the primary artifact has uploaded and the primary-transaction
calls succeed, the run commits regardless of how the individual
symbol-archive uploads, listing updates and image uploads fare (their
oracles are unconstrained): every symbol archive, every listing locale and
every resolvable image is still attempted, and validate and commit are
issued. -/
theorem c5_auxiliary_failures_recoverable :
    ∀ cfg items releaseAssets getApk getAab fsys r c s info t1 vc,
      configPhase cfg = .ok c →
      assetPhase getApk getAab items releaseAssets = .ok s →
      primaryInfo s = some info → info.packageName ≠ "" →
      r.insertOk = true →
      primaryPhase s fsys r = (t1, .ok vc) →
      r.tracksListOk = true → c.track ∈ r.trackNames →
      r.getTrackOk = true → r.updateTrackOk = true →
      r.validateOk = true → r.commitOk = true →
      ((main cfg items releaseAssets getApk getAab fsys r).2 = .ok () ∧
       (∀ z, z ∈ s.symbolFiles →
          RemoteCall.uploadDeobfuscation vc (deobfuscationFileType z) z ∈
            (main cfg items releaseAssets getApk getAab fsys r).1) ∧
       (∀ l, l ∈ listingsOf c.metadata →
          RemoteCall.updateListing l.language ∈
            (main cfg items releaseAssets getApk getAab fsys r).1) ∧
       (∀ i, i ∈ imagesOf c.metadata → fsys.fileExists i.path = true →
          RemoteCall.uploadImage i.language i.type i.path ∈
            (main cfg items releaseAssets getApk getAab fsys r).1) ∧
       RemoteCall.validateEdit ∈
         (main cfg items releaseAssets getApk getAab fsys r).1 ∧
       RemoteCall.commitEdit c.changesNotSentForReview ∈
         (main cfg items releaseAssets getApk getAab fsys r).1) := by
  intro cfg items releaseAssets getApk getAab fsys r c s info t1 vc hc hs hpi
    hpn hins hpp hlist htr hget hupd hval hcom
  rw [main_all_ok_eq hc hs hpi hpn hins hpp hlist htr hget hupd hval hcom]
  refine ⟨rfl, ?_, ?_, ?_, ?_, ?_⟩
  · intro z hz
    exact List.mem_append_left _ (List.mem_append_left _ (List.mem_append_left _
      (List.mem_append_right _ (symbolCalls_mem hz))))
  · intro l hl
    exact List.mem_append_left _ (List.mem_append_right _
      (List.mem_append_left _ (listingCalls_mem hl)))
  · intro i hi hex
    exact List.mem_append_left _ (List.mem_append_right _
      (List.mem_append_right _ (imageCalls_mem hi hex)))
  · exact List.mem_append_right _ (List.mem_append_left _
      (List.mem_singleton_self _))
  · exact List.mem_append_right _ (List.mem_append_right _
      (List.mem_singleton_self _))

/-- Assets, remote and file system for the c5 witness: an APK with a symbol
archive, metadata with one listing and one image, and auxiliary oracles
that all fail. -/
def cfgMetaW : Config := { cfgW with metadata := some mdW }

/-- The validated configuration produced by cfgMetaW. -/
def cMetaW : ConfigOk := { cOkW with metadata := some mdW }

/-- A remote service whose auxiliary endpoints all fail. -/
def remoteAuxFailW : Remote :=
  { remoteW with deobUploadOk := fun _ => false,
                 expansionUploadOk := fun _ => false,
                 listingUpdateOk := fun _ => false,
                 imageUploadOk := fun _ => false }

/-- The classified asset set of the c5 witness run. -/
def sApkW : AssetSet :=
  ⟨some ⟨"com.example.app", "1.0", "42", "app.apk"⟩, none, [], ["mapping.zip"]⟩

/-- Witness for c5_auxiliary_failures_recoverable: with every auxiliary
upload failing, the run still commits, the symbol archive and the listing
and the image are all attempted, and validate and commit are issued. -/
theorem c5_auxiliary_failures_recoverable_witness :
    (main cfgMetaW ["app.apk", "mapping.zip"] ["app.apk", "mapping.zip"]
        getApkW getAabW fsW remoteAuxFailW).2 = .ok () ∧
    (∀ z, z ∈ sApkW.symbolFiles →
       RemoteCall.uploadDeobfuscation 42 (deobfuscationFileType z) z ∈
         (main cfgMetaW ["app.apk", "mapping.zip"] ["app.apk", "mapping.zip"]
            getApkW getAabW fsW remoteAuxFailW).1) ∧
    (∀ l, l ∈ listingsOf cMetaW.metadata →
       RemoteCall.updateListing l.language ∈
         (main cfgMetaW ["app.apk", "mapping.zip"] ["app.apk", "mapping.zip"]
            getApkW getAabW fsW remoteAuxFailW).1) ∧
    (∀ i, i ∈ imagesOf cMetaW.metadata → fsW.fileExists i.path = true →
       RemoteCall.uploadImage i.language i.type i.path ∈
         (main cfgMetaW ["app.apk", "mapping.zip"] ["app.apk", "mapping.zip"]
            getApkW getAabW fsW remoteAuxFailW).1) ∧
    RemoteCall.validateEdit ∈
      (main cfgMetaW ["app.apk", "mapping.zip"] ["app.apk", "mapping.zip"]
         getApkW getAabW fsW remoteAuxFailW).1 ∧
    RemoteCall.commitEdit cMetaW.changesNotSentForReview ∈
      (main cfgMetaW ["app.apk", "mapping.zip"] ["app.apk", "mapping.zip"]
         getApkW getAabW fsW remoteAuxFailW).1 :=
  c5_auxiliary_failures_recoverable cfgMetaW ["app.apk", "mapping.zip"]
    ["app.apk", "mapping.zip"] getApkW getAabW fsW remoteAuxFailW cMetaW sApkW
    ⟨"com.example.app", "1.0", "42", "app.apk"⟩
    [RemoteCall.uploadApk "com.example.app" "app.apk"] 42 rfl rfl rfl
    (by decide) rfl rfl rfl (by decide) rfl rfl rfl rfl

/-- C6: for both tool families (aapt2 badging for APKs and bundletool
manifest dump for AABs), once the prechecks pass (nonempty path, right
suffix, existing file, resolvable tool, zero exit code), metadata extraction
returns a PackageInfo exactly when the captured output matches all three
field patterns (package identifier, version code, version name); when it
does, every field of the returned record is the corresponding capture (so no
PackageInfo with a missing field is ever returned); and when any one
pattern fails to match, the fatal ManifestFieldMissing error is raised. -/
theorem c6_manifest_extraction :
    ∀ (filePath : String) (fe tf : Bool) (run : ToolRun),
      trimStr filePath ≠ "" → fe = true → tf = true → run.exitCode = 0 →
      ((endsWithStr (toLowerStr filePath) ".apk" = true →
        (((∃ info, getPackageInfoApk filePath fe tf run = .ok info) ↔
           ((extractField "package=" run.output).isSome = true ∧
            (extractField "versionCode=" run.output).isSome = true ∧
            (extractField "versionName=" run.output).isSome = true)) ∧
         (∀ info, getPackageInfoApk filePath fe tf run = .ok info →
            extractField "package=" run.output = some info.packageName ∧
            extractField "versionCode=" run.output = some info.versionCode ∧
            extractField "versionName=" run.output = some info.versionName ∧
            info.filePath = filePath) ∧
         (¬((extractField "package=" run.output).isSome = true ∧
            (extractField "versionCode=" run.output).isSome = true ∧
            (extractField "versionName=" run.output).isSome = true) →
          getPackageInfoApk filePath fe tf run =
            .error (.manifestFieldMissing filePath)))) ∧
       (endsWithStr (toLowerStr filePath) ".aab" = true →
        (((∃ info, getPackageInfoAab filePath fe tf run = .ok info) ↔
           ((extractField "package=" run.output).isSome = true ∧
            (extractField "versionCode=" run.output).isSome = true ∧
            (extractField "versionName=" run.output).isSome = true)) ∧
         (∀ info, getPackageInfoAab filePath fe tf run = .ok info →
            extractField "package=" run.output = some info.packageName ∧
            extractField "versionCode=" run.output = some info.versionCode ∧
            extractField "versionName=" run.output = some info.versionName ∧
            info.filePath = filePath) ∧
         (¬((extractField "package=" run.output).isSome = true ∧
            (extractField "versionCode=" run.output).isSome = true ∧
            (extractField "versionName=" run.output).isSome = true) →
          getPackageInfoAab filePath fe tf run =
            .error (.manifestFieldMissing filePath))))) := by
  intro filePath fe tf run htrim hfe htf hexit
  subst hfe
  subst htf
  constructor
  · intro hsuf
    have hred : getPackageInfoApk filePath true true run =
        (match parsePackageInfo run.output filePath with
         | some info => .ok info
         | none => .error (.manifestFieldMissing filePath)) := by
      unfold getPackageInfoApk
      rw [if_neg htrim, if_neg (by simp [hsuf]), if_neg (by simp),
          if_neg (by simp), if_neg (by simp [hexit])]
    rw [hred]
    unfold parsePackageInfo
    cases h1 : extractField "package=" run.output with
    | none =>
      refine ⟨⟨fun ⟨info, hinfo⟩ => ?_, fun hall => ?_⟩, fun info hinfo => ?_,
        fun hnall => rfl⟩
      · exact Except.noConfusion hinfo
      · exact absurd hall.1 (by simp)
      · exact Except.noConfusion hinfo
    | some pkg =>
      cases h2 : extractField "versionCode=" run.output with
      | none =>
        refine ⟨⟨fun ⟨info, hinfo⟩ => ?_, fun hall => ?_⟩, fun info hinfo => ?_,
          fun hnall => rfl⟩
        · exact Except.noConfusion hinfo
        · exact absurd hall.2.1 (by simp)
        · exact Except.noConfusion hinfo
      | some versionCode =>
        cases h3 : extractField "versionName=" run.output with
        | none =>
          refine ⟨⟨fun ⟨info, hinfo⟩ => ?_, fun hall => ?_⟩,
            fun info hinfo => ?_, fun hnall => rfl⟩
          · exact Except.noConfusion hinfo
          · exact absurd hall.2.2 (by simp)
          · exact Except.noConfusion hinfo
        | some versionName =>
          refine ⟨⟨fun _ => ⟨by simp, by simp, by simp⟩,
            fun _ => ⟨_, rfl⟩⟩, fun info hinfo => ?_, fun hnall => ?_⟩
          · injection hinfo with hinfo
            subst hinfo
            exact ⟨rfl, rfl, rfl, rfl⟩
          · exact absurd ⟨by simp, by simp, by simp⟩ hnall
  · intro hsuf
    have hred : getPackageInfoAab filePath true true run =
        (match parsePackageInfo run.output filePath with
         | some info => .ok info
         | none => .error (.manifestFieldMissing filePath)) := by
      unfold getPackageInfoAab
      rw [if_neg htrim, if_neg (by simp [hsuf]), if_neg (by simp),
          if_neg (by simp), if_neg (by simp [hexit])]
    rw [hred]
    unfold parsePackageInfo
    cases h1 : extractField "package=" run.output with
    | none =>
      refine ⟨⟨fun ⟨info, hinfo⟩ => ?_, fun hall => ?_⟩, fun info hinfo => ?_,
        fun hnall => rfl⟩
      · exact Except.noConfusion hinfo
      · exact absurd hall.1 (by simp)
      · exact Except.noConfusion hinfo
    | some pkg =>
      cases h2 : extractField "versionCode=" run.output with
      | none =>
        refine ⟨⟨fun ⟨info, hinfo⟩ => ?_, fun hall => ?_⟩, fun info hinfo => ?_,
          fun hnall => rfl⟩
        · exact Except.noConfusion hinfo
        · exact absurd hall.2.1 (by simp)
        · exact Except.noConfusion hinfo
      | some versionCode =>
        cases h3 : extractField "versionName=" run.output with
        | none =>
          refine ⟨⟨fun ⟨info, hinfo⟩ => ?_, fun hall => ?_⟩,
            fun info hinfo => ?_, fun hnall => rfl⟩
          · exact Except.noConfusion hinfo
          · exact absurd hall.2.2 (by simp)
          · exact Except.noConfusion hinfo
        | some versionName =>
          refine ⟨⟨fun _ => ⟨by simp, by simp, by simp⟩,
            fun _ => ⟨_, rfl⟩⟩, fun info hinfo => ?_, fun hnall => ?_⟩
          · injection hinfo with hinfo
            subst hinfo
            exact ⟨rfl, rfl, rfl, rfl⟩
          · exact absurd ⟨by simp, by simp, by simp⟩ hnall

/-- A captured badging output in which all three manifest fields match. -/
def goodRunW : ToolRun :=
  ⟨0, "package=\u0027com.example.app\u0027 versionCode=\u002742\u0027 versionName=\u00271.0\u0027"⟩

/-- A captured badging output with the versionName field absent. -/
def badRunW : ToolRun := ⟨0, "package=\u0027com.example.app\u0027 versionCode=\u002742\u0027"⟩

/-- Witness for c6_manifest_extraction: on an output carrying all three
fields extraction succeeds, and removing one field makes both families
raise ManifestFieldMissing. -/
theorem c6_manifest_extraction_witness :
    ((∃ info, getPackageInfoApk "app.apk" true true goodRunW = .ok info) ∧
     getPackageInfoApk "app.apk" true true badRunW =
       .error (.manifestFieldMissing "app.apk")) ∧
    ((∃ info, getPackageInfoAab "app.aab" true true goodRunW = .ok info) ∧
     getPackageInfoAab "app.aab" true true badRunW =
       .error (.manifestFieldMissing "app.aab")) :=
  ⟨⟨((c6_manifest_extraction "app.apk" true true goodRunW (by decide) rfl rfl
        rfl).1 (by decide)).1.mpr (by decide),
    ((c6_manifest_extraction "app.apk" true true badRunW (by decide) rfl rfl
        rfl).1 (by decide)).2.2 (by decide)⟩,
   ⟨((c6_manifest_extraction "app.aab" true true goodRunW (by decide) rfl rfl
        rfl).2 (by decide)).1.mpr (by decide),
    ((c6_manifest_extraction "app.aab" true true badRunW (by decide) rfl rfl
        rfl).2 (by decide)).2.2 (by decide)⟩⟩

/-- C8: tool provisioning on a cache miss (java present, no cached version,
successful latest-release query) fails with the no-jar-asset error when no
release asset name ends in .jar; fails with the empty-download error when
the downloaded file has size zero; and returns a cached tool path only when
a jar asset was found and the download is non-empty. -/
theorem c8_tool_provisioning :
    ∀ (cachedVersions : List String) (cacheFindPath : String → String)
      (assets : List ReleaseAsset) (tagName : String)
      (downloadOk downloadReadable : Bool) (downloadSize : Nat)
      (cacheDirPath : String → String),
      cachedVersions = [] →
      ((assets.find? (fun asset => endsWithStr asset.name ".jar") = none →
        setupBundleTool true cachedVersions cacheFindPath 200 assets tagName
          downloadOk downloadReadable downloadSize cacheDirPath =
          .error .noJarAsset) ∧
       (∀ a, assets.find? (fun asset => endsWithStr asset.name ".jar") =
            some a →
          downloadOk = true → downloadReadable = true → downloadSize = 0 →
          setupBundleTool true cachedVersions cacheFindPath 200 assets tagName
            downloadOk downloadReadable downloadSize cacheDirPath =
            .error .emptyDownload) ∧
       (∀ path,
          setupBundleTool true cachedVersions cacheFindPath 200 assets tagName
            downloadOk downloadReadable downloadSize cacheDirPath =
            .ok path →
          (∃ a, assets.find? (fun asset => endsWithStr asset.name ".jar") =
             some a) ∧
          downloadSize ≠ 0 ∧ path = cacheDirPath tagName)) := by
  intro cachedVersions cacheFindPath assets tagName downloadOk
    downloadReadable downloadSize cacheDirPath hcache
  subst hcache
  refine ⟨?_, ?_, ?_⟩
  · intro hfind
    unfold setupBundleTool
    rw [if_neg (by simp), if_neg (by simp), if_neg (by simp), hfind]
  · intro a hfind hok hread hzero
    unfold setupBundleTool
    rw [if_neg (by simp), if_neg (by simp), if_neg (by simp), hfind,
        if_neg (by simp [hok]), if_neg (by simp [hread]), if_pos hzero]
  · intro path hok
    unfold setupBundleTool at hok
    rw [if_neg (by simp), if_neg (by simp), if_neg (by simp)] at hok
    cases hfind : assets.find? (fun asset => endsWithStr asset.name ".jar") with
    | none =>
      rw [hfind] at hok
      exact Except.noConfusion hok
    | some a =>
      simp only [hfind] at hok
      split at hok
      · exact Except.noConfusion hok
      · split at hok
        · exact Except.noConfusion hok
        · split at hok
          · exact Except.noConfusion hok
          · rename_i hsz
            injection hok with hok
            exact ⟨⟨a, rfl⟩, hsz, hok.symm⟩

/-- Witness for c8_tool_provisioning: with no jar asset provisioning fails
with the no-jar error; with a jar asset and a size-zero download it fails
with the empty-download error; a successful run yields the cached path. -/
theorem c8_tool_provisioning_witness :
    (setupBundleTool true [] (fun _ => "") 200
        [⟨"readme.md", "u0"⟩] "1.18.2" true true 0 (fun tag => "cache/" ++ tag) =
      .error .noJarAsset) ∧
    (setupBundleTool true [] (fun _ => "") 200
        [⟨"bundletool-all-1.18.2.jar", "u1"⟩] "1.18.2" true true 0
        (fun tag => "cache/" ++ tag) = .error .emptyDownload) ∧
    ((∃ a, List.find? (fun asset => endsWithStr asset.name ".jar")
        [(⟨"bundletool-all-1.18.2.jar", "u1"⟩ : ReleaseAsset)] = some a) ∧
     (77 : Nat) ≠ 0 ∧ ("cache/" ++ "1.18.2" : String) = "cache/" ++ "1.18.2") :=
  ⟨(c8_tool_provisioning [] (fun _ => "") [⟨"readme.md", "u0"⟩] "1.18.2" true
      true 0 (fun tag => "cache/" ++ tag) rfl).1 (by decide),
   (c8_tool_provisioning [] (fun _ => "") [⟨"bundletool-all-1.18.2.jar", "u1"⟩]
      "1.18.2" true true 0 (fun tag => "cache/" ++ tag) rfl).2.1
      ⟨"bundletool-all-1.18.2.jar", "u1"⟩ (by decide) rfl rfl rfl,
   (c8_tool_provisioning [] (fun _ => "") [⟨"bundletool-all-1.18.2.jar", "u1"⟩]
      "1.18.2" true true 77 (fun tag => "cache/" ++ tag) rfl).2.2
      ("cache/" ++ "1.18.2") rfl⟩

/-- C3 (evaluation at the failing input): with a metadata payload carrying
a top-level images array whose only entry has language en-US, type icon and
path assets/icon.png — the three-field shape the README documents and
tests/metadata.test.ts validates — the orchestrator issues an image-upload
request whose arguments are exactly those three fields of the entry, and
the run still commits.  The Metadata interface declared in src/metadata.ts
(the structure Metadata above) cannot express this payload: it declares no
top-level images member, and its declared Image carries no language member;
the orchestrator's reads in src/index.ts lines 332-347 follow the
MetadataValue shape instead, so the declaration diverges from the code,
the README and the tests. -/
theorem c3_images_three_fields :
    (imagesOf cfgMetaW.metadata = [imgW] ∧
     imageCalls cfgMetaW.metadata fsW =
       [RemoteCall.uploadImage imgW.language imgW.type imgW.path]) ∧
    RemoteCall.uploadImage "en-US" "icon" "assets/icon.png" ∈
      (main cfgMetaW ["app.aab"] ["app.aab"] getApkW getAabW fsW remoteW).1 ∧
    (main cfgMetaW ["app.aab"] ["app.aab"] getApkW getAabW fsW remoteW).2 =
      .ok () :=
  ⟨⟨rfl, rfl⟩, by decide, rfl⟩

end GPlay
